import Mathlib

/-! Shallow embedding of the streamlit dashboard helpers in
`lightning_pose/apps/utils.py`, together with proofs about the
table-reshaping and file-discovery functions.

Modelling conventions:
* pandas `DataFrame`s become `DataFrame`: a row index (list of row labels)
  plus a list of (column label, column values) pairs, kept in column order.
  Cell values are `Val` (a rational number, a string, or NaN); column labels
  are `String` for flat frames and `String × String` for the two-level
  (keypoint, coordinate) headers consumed by `concat_dfs`.
* The Python string operations used by the source (`in`, `split(...)[0]`,
  `strip()`, `str.count`, trailing-character tests) are re-implemented by
  structural recursion on the character list so that every proof computes.
  `Char.isWhitespace` (space, tab, CR, LF) stands in for Python's notion of
  whitespace; all strings that actually occur here are ASCII.
* Fallible code paths (KeyError, IndexError, numpy reshape errors, unbound
  locals) are modelled with `Except String`.
* The `@st.cache_resource` / `@st.cache_data` decorators are an external
  memoization layer and are not part of the embedded functions.
-/

/-- Python `s.startswith(pat)` on character lists. -/
def startsWithL : List Char → List Char → Bool
  | _, [] => true
  | [], _ :: _ => false
  | a :: s, b :: p => a == b && startsWithL s p

/-- Python `pat in s` (substring containment) on character lists. -/
def containsL (pat : List Char) : List Char → Bool
  | [] => startsWithL [] pat
  | a :: t => startsWithL (a :: t) pat || containsL pat t

/-- The prefix of `s` before the first occurrence of `pat`
(all of `s` when `pat` does not occur); for nonempty `pat` this is
Python `s.split(pat)[0]`. -/
def prefixBefore (pat : List Char) : List Char → List Char
  | [] => []
  | a :: t => if startsWithL (a :: t) pat then [] else a :: prefixBefore pat t

/-- Python `pat in s` for strings (used only with nonempty literal patterns). -/
def strContains (s pat : String) : Bool :=
  containsL pat.data s.data

/-- Python `s.split(pat)[0]` for strings. -/
def strSplitFirst (s pat : String) : String :=
  ⟨prefixBefore pat.data s.data⟩

/-- Drop leading whitespace characters. -/
def dropLeadingWs : List Char → List Char
  | [] => []
  | a :: t => if a.isWhitespace then dropLeadingWs t else a :: t

/-- Python `s.strip()`: remove leading and trailing whitespace. -/
def pyStrip (s : String) : String :=
  ⟨((dropLeadingWs ((dropLeadingWs s.data).reverse)).reverse)⟩

/-- Python `s.endswith(pat)` for strings. -/
def strEndsWith (s pat : String) : Bool :=
  startsWithL s.data.reverse pat.data.reverse

/-- Python `s.count(os.sep)` with `os.sep = "/"`: the number of path
separators in `s`. -/
def countSep (s : String) : Nat :=
  s.data.count '/'

/-- A pandas cell value: a (rational) number, a string, or NaN. -/
inductive Val where
  | num (q : ℚ)
  | str (s : String)
  | nan
  deriving DecidableEq

/-- A pandas `DataFrame` over column labels `κ`: a row index together with
the columns (label and cell list) in column order.  In a well-formed frame
every column has exactly `index.length` cells. -/
structure DataFrame (κ : Type) where
  index : List String
  cols : List (κ × List Val)
  deriving DecidableEq

/-- Well-formedness: every column holds one cell per index entry. -/
def DataFrame.wf (df : DataFrame κ) : Bool :=
  df.cols.all (fun c => c.2.length == df.index.length)

/-- Single-column lookup by label, `df[name]` / attribute access, for frames
whose labels are unique (the case the claims' hypotheses restrict to; on a
duplicated label pandas would return every matching column — multi-column
selection goes through `selectCols`): the matching column, `none` when the
label is absent (pandas raises KeyError / AttributeError there). -/
def getCol (df : DataFrame String) (name : String) : Option (List Val) :=
  (df.cols.find? (fun c => c.1 == name)).map Prod.snd

/-- Multi-column selection `df[names]`: for each requested label, in request
order, every column bearing that label (pandas returns all duplicates, in the
frame's column order); `none` (KeyError) as soon as one label matches no
column. -/
def selectCols (df : DataFrame String) (names : List String) : Option (List (List Val)) :=
  if names.all (fun k => df.cols.any (fun c => c.1 == k)) then
    some (names.flatMap (fun k => (df.cols.filter (fun c => c.1 == k)).map Prod.snd))
  else none

/-- Column assignment `df[name] = vals`: replace the column in place when the
label already exists, otherwise append a new column at the end. -/
def setCol (df : DataFrame String) (name : String) (vals : List Val) : DataFrame String :=
  if (df.cols.find? (fun c => c.1 == name)).isSome then
    ⟨df.index, df.cols.map (fun c => if c.1 == name then (name, vals) else c)⟩
  else
    ⟨df.index, df.cols ++ [(name, vals)]⟩

/-- `df.rename(columns={old: new})`: relabel every column labelled `old`. -/
def renameCol (df : DataFrame String) (old new : String) : DataFrame String :=
  ⟨df.index, df.cols.map (fun c => if c.1 == old then (new, c.2) else c)⟩

/-- The numeric entries of a list of cells (NaN and strings are skipped, as
pandas does when averaging). -/
def numsOf (vs : List Val) : List ℚ :=
  vs.filterMap (fun v => match v with | .num q => some q | _ => none)

/-- The arithmetic mean of a list of rationals. -/
def meanSpec (qs : List ℚ) : ℚ :=
  qs.sum / qs.length

/-- pandas row mean: average of the numeric cells, NaN when there are none. -/
def rowMean (vs : List Val) : Val :=
  let qs := numsOf vs
  if qs.length = 0 then .nan else .num (qs.sum / qs.length)

/-- `df[sel].mean(axis=1)` given the selected columns: one `rowMean` per row.
(The `getD` default is never reached on well-formed frames.) -/
def meanAxis1 (sel : List (List Val)) (nrows : Nat) : List Val :=
  (List.range nrows).map (fun r => rowMean (sel.map (fun col => col.getD r Val.nan)))

/-- The cell of `df` in column position `i`, row `r` (defaults are never
reached in the guarded uses below). -/
def cellAt (df : DataFrame String) (i r : Nat) : Val :=
  ((df.cols.getD i ("", [])).2).getD r Val.nan

/-- `update_labeled_file_list` (spec name `list_labeled_prediction_files`):
for each model folder, keep the files whose name contains `"predictions"`,
appending a file when `'new' not in file and not use_ood`, or when
`'new' in file and use_ood`, and skipping it otherwise.  A folder is
modelled by the list of its (regular) file names in listing order; the
`Path(...)` wrapper of the source is identity on names. -/
def update_labeled_file_list (model_preds_folders : List (List String))
    (use_ood : Bool) : List (List String) :=
  model_preds_folders.map (fun model_preds =>
    model_preds.foldl (fun ret_files file =>
      if strContains file "predictions" then
        if !(strContains file "new") && !use_ood then ret_files ++ [file]
        else if strContains file "new" && use_ood then ret_files ++ [file]
        else ret_files
      else ret_files) [])

/-- Insertion into a Python `set`, modelled as a duplicate-free list: a member
is added only when not already present.  `list(set(...))` enumerates in an
unspecified order; this model fixes first-insertion order, and the theorems
below only read the result through membership and `Nodup`. -/
def setInsert (s : List String) (x : String) : List String :=
  if x ∈ s then s else s ++ [x]

/-- `get_all_videos` (spec name `list_all_videos`): over every file of every
folder's `video_preds` subdirectory, insert `file.split('_temporal_norm.csv')[0]`
when `'temporal' in file`, else insert `file.split('.csv')[0]` when neither
`'temporal'` nor `'pca'` is in the file name. -/
def get_all_videos (model_preds_folders : List (List String)) : List String :=
  model_preds_folders.foldl (fun ret_videos model_preds =>
    model_preds.foldl (fun ret file =>
      if strContains file "temporal" then
        setInsert ret (strSplitFirst file "_temporal_norm.csv")
      else if !(strContains file "temporal") && !(strContains file "pca") then
        setInsert ret (strSplitFirst file ".csv")
      else ret) ret_videos) []

/-- Per-file video identifier, written after the amended reading of the spec:
when `"temporal"` occurs anywhere in the name the identifier is the part
before the first occurrence of `"_temporal_norm.csv"` (the whole name when
that substring is absent); otherwise, when `"pca"` does not occur, the part
before the first occurrence of `".csv"`; otherwise the file is skipped. -/
def videoIdOf (file : String) : Option String :=
  if strContains file "temporal" then some (strSplitFirst file "_temporal_norm.csv")
  else if !(strContains file "pca") then some (strSplitFirst file ".csv")
  else none

/-- The slice `columns[1::3]`: elements at positions 1, 4, 7, …. -/
def everyThirdFromOne : List α → List α
  | _ :: b :: _ :: t => b :: everyThirdFromOne t
  | [_, b] => [b]
  | _ => []

/-- `strip_cols_append_name`: collapse the two-level header by joining the two
levels with `"_"` and stripping whitespace, then append `"_" + name` to every
column label (two successive relabelings, as in the source). -/
def strip_cols_append_name (df : DataFrame (String × String)) (name : String) :
    DataFrame String :=
  let joined : DataFrame String :=
    ⟨df.index, df.cols.map (fun c => (pyStrip (c.1.1 ++ "_" ++ c.1.2), c.2))⟩
  ⟨joined.index, joined.cols.map (fun c => (c.1 ++ "_" ++ name, c.2))⟩

/-- `pd.concat([a, b], axis=1)` for frames sharing the same row index — the
only case the dashboard exercises (and the case claimed about): the columns of
`b` are appended after those of `a`. -/
def concatCols (a b : DataFrame String) : DataFrame String :=
  ⟨a.index, a.cols ++ b.cols⟩

/-- `concat_dfs`: the first table (a copy, by value semantics) provides
`base_colnames = [c[0] for c in df.columns[1::3]]`; every table is passed
through `strip_cols_append_name` with its model name and concatenated
column-wise in mapping order.  The Python dict is an insertion-ordered list of
(model name, frame) pairs.  On an empty dict the loop never binds `df_concat`,
and the final `return` raises — modelled as `.error`. -/
def concat_dfs (dframes : List (String × DataFrame (String × String))) :
    Except String (DataFrame String × List String) :=
  match dframes with
  | [] => .error "UnboundLocalError: local variable df_concat referenced before assignment"
  | (model_name, dframe) :: rest =>
    let base_colnames := (everyThirdFromOne dframe.cols).map (fun c => c.1.1)
    let df_concat := strip_cols_append_name dframe model_name
    .ok (rest.foldl (fun acc md => concatCols acc (strip_cols_append_name md.2 md.1)) df_concat,
         base_colnames)

/-- `get_precomputed_error` (spec name `compute_pixel_error`).  In the source
`df_ = df` merely aliases the argument, so every update below happens in place
on the caller's frame; the function value and the post-call state of the
argument are the same frame (see `get_precomputed_error_df_after`).
Missing keypoint columns raise KeyError.  After the two column assignments
`df_` always has at least two columns, so `df.columns[0]` (read through the
alias) is total. -/
def get_precomputed_error (df : DataFrame String) (keypoint_names : List String)
    (model_name : String) : Except String (DataFrame String) :=
  let df1 := setCol df "model_name" (List.replicate df.index.length (Val.str model_name))
  match selectCols df1 keypoint_names.dropLast with
  | none => .error "KeyError"
  | some sel =>
    let df2 := setCol df1 "mean" (meanAxis1 sel df.index.length)
    .ok (renameCol df2 (df2.cols.headD ("", [])).1 "img_file")

/-- The caller's `df` argument after `get_precomputed_error(df, …)` returns:
because `df_ = df` aliases, the argument ends up equal to the returned frame. -/
def get_precomputed_error_df_after (df : DataFrame String)
    (keypoint_names : List String) (model_name : String) :
    Except String (DataFrame String) :=
  get_precomputed_error df keypoint_names model_name

/-- `compute_confidence`: when the column count is ≡ 1 mod 3 the trailing
column is split off as the `set` labels; the remaining cells are reshaped
row-major to `(rows, -1, 3)` (numpy raises when the data column count is not
a multiple of 3, or when the frame has no rows so `-1` cannot be inferred)
and the third slot of each triplet is taken per keypoint
(`results[:, c]` raises IndexError when `keypoint_names` outnumbers the
triplets).  A fresh frame `pd.DataFrame(columns=keypoint_names)` is built: it
has no rows, and only the first per-keypoint column assignment (if any — with
no keypoints the loop never runs and the frame stays zero-row) stretches it to
the input's row count; then `model_name` (a scalar, broadcast to the frame's
current length), then `mean` over `keypoint_names[:-1]`, and — only when a
`set` column was split off — `set` and `img_file` (the input's row index).
Those last two assign arrays of the input's row count (pandas frames are never
ragged), which pandas rejects with ValueError when the fresh frame's length
differs — i.e. exactly when no keypoint column stretched it.  The fresh
frame's RangeIndex is modelled as the decimal row numbers. -/
def compute_confidence (df : DataFrame String) (keypoint_names : List String)
    (model_name : String) : Except String (DataFrame String) :=
  let dataCols := if df.cols.length % 3 == 1 then df.cols.dropLast else df.cols
  let setvals : Option (List Val) :=
    if df.cols.length % 3 == 1 then some ((df.cols.getLastD ("", [])).2) else none
  if df.index.length == 0 || dataCols.length % 3 != 0 then
    .error "ValueError: cannot reshape"
  else if dataCols.length / 3 < keypoint_names.length then
    .error "IndexError: index out of bounds"
  else
    let nrows := df.index.length
    let outRows := if keypoint_names.isEmpty then 0 else nrows
    let conf : Nat → List Val := fun c =>
      (List.range nrows).map (fun r => ((dataCols.getD (3 * c + 2) ("", [])).2).getD r Val.nan)
    let base : DataFrame String :=
      ⟨(List.range outRows).map (fun i => toString i), keypoint_names.map (fun k => (k, []))⟩
    let withKp := keypoint_names.enum.foldl (fun acc p => setCol acc p.2 (conf p.1)) base
    let df1 := setCol withKp "model_name" (List.replicate outRows (Val.str model_name))
    match selectCols df1 keypoint_names.dropLast with
    | none => .error "KeyError"
    | some sel =>
      let df2 := setCol df1 "mean" (meanAxis1 sel outRows)
      match setvals with
      | some sv =>
        if df.index.length == outRows then
          .ok (setCol (setCol df2 "set" sv) "img_file" (df.index.map Val.str))
        else .error "ValueError: Length of values does not match length of index"
      | none => .ok df2

/-- Lift an optional value into `Except`, with the Python error it stands for. -/
def ofOption : Option α → String → Except String α
  | some a, _ => .ok a
  | none, e => .error e

/-- Boolean-mask row filtering `series[mask]`. -/
def maskFilter (vals : List α) (mask : List Bool) : List α :=
  ((vals.zip mask).filter (fun p => p.2)).map Prod.fst

/-- `pd.concat([a, b])` (axis 0) for frames with the same column layout — the
only case built by `get_df_scatter`: rows are appended columnwise. -/
def concatRows (a b : DataFrame String) : DataFrame String :=
  ⟨a.index ++ b.index, a.cols.zipWith (fun c d => (c.1, c.2 ++ d.2)) b.cols⟩

/-- One iteration of the `get_df_scatter` loop: the dict literal is evaluated
left to right — `df_0.img_file`, `df_0.set` (mask), `model_names[0]`,
`df_0[keypoint]`, `model_names[1]`, `df_1[keypoint]`, `df_1.set` — so a short
`model_names` raises IndexError at the subscript, after the earlier lookups
succeed; in the last entry's value `df_1[keypoint]` is evaluated before
`df_1.set`.  The per-keypoint frames of the dashboard share `df_0`'s row
index, so index alignment is the identity. -/
def scatterRow (df_0 df_1 : DataFrame String) (data_type : String)
    (model_names : List String) (keypoint : String) :
    Except String (DataFrame String) := do
  let imgcol ← ofOption (getCol df_0 "img_file") "AttributeError: img_file"
  let set0 ← ofOption (getCol df_0 "set") "AttributeError: set"
  let mask0 := set0.map (fun v => v == Val.str data_type)
  let _name0 ← ofOption (model_names.get? 0) "IndexError: list index out of range"
  let col0 ← ofOption (getCol df_0 keypoint) "KeyError"
  let _name1 ← ofOption (model_names.get? 1) "IndexError: list index out of range"
  let col1 ← ofOption (getCol df_1 keypoint) "KeyError"
  let set1 ← ofOption (getCol df_1 "set") "AttributeError: set"
  let mask1 := set1.map (fun v => v == Val.str data_type)
  let img := maskFilter imgcol mask0
  .ok ⟨maskFilter df_0.index mask0,
       [("img_file", img),
        ("keypoint", List.replicate img.length (Val.str keypoint)),
        (_name0, maskFilter col0 mask0),
        (_name1, maskFilter col1 mask1)]⟩

/-- `get_df_scatter` (spec name `build_scatter_table`): one frame per keypoint
via `scatterRow`, row-concatenated at the end (`pd.concat` raises on the empty
list when there are no keypoints). -/
def get_df_scatter (df_0 df_1 : DataFrame String) (data_type : String)
    (model_names keypoint_names : List String) :
    Except String (DataFrame String) := do
  let df_scatters ← keypoint_names.mapM (scatterRow df_0 df_1 data_type model_names)
  match df_scatters with
  | [] => .error "ValueError: No objects to concatenate"
  | d :: rest => .ok (rest.foldl concatRows d)

mutual
/-- A directory: its name and its (ordered) subdirectories. -/
inductive DirTree : Type where
  | node : String → Forest → DirTree

/-- An ordered list of directories. -/
inductive Forest : Type where
  | nil : Forest
  | cons : DirTree → Forest → Forest
end

/-- The directory's name. -/
def DirTree.name : DirTree → String
  | .node n _ => n

/-- The directory's subdirectories. -/
def DirTree.children : DirTree → Forest
  | .node _ c => c

mutual
/-- The `root` components of `os.walk(path)` over the directory at `path`
(top-down, directories first, depth-first — `os.walk`'s default order). -/
def walkTree (path : String) : DirTree → List String
  | .node _ cs => path :: walkForest path cs

/-- `os.walk` roots contributed by a list of subdirectories of `path`. -/
def walkForest (path : String) : Forest → List String
  | .nil => []
  | .cons t ts => walkTree (path ++ "/" ++ t.name) t ++ walkForest path ts
end

mutual
/-- No directory name in the tree contains a path separator. -/
def treeNoSep : DirTree → Bool
  | .node n cs => !(n.data.contains '/') && forestNoSep cs

/-- No directory name in the forest contains a path separator. -/
def forestNoSep : Forest → Bool
  | .nil => true
  | .cons t ts => treeNoSep t && forestNoSep ts
end

/-- The members of a forest as a plain list of trees. -/
def forestToList : Forest → List DirTree
  | .nil => []
  | .cons t ts => t :: forestToList ts

/-- The paths of the directories exactly `d` levels below `path` in the tree
rooted at `path` (the tree itself at `d = 0`), in walk order. -/
def treeDirsAt (path : String) (t : DirTree) : Nat → List String
  | 0 => [path]
  | Nat.succ d =>
    (forestToList t.children).flatMap (fun c => treeDirsAt (path ++ "/" ++ c.name) c d)

/-- `get_model_folders`: strip one trailing `os.sep` from `model_dir` if
present (the source indexes `model_dir[-1]`, so Python raises on the empty
string; the claims only concern nonempty roots), then keep every walked
directory whose separator count exceeds the root's by exactly 2.  `t` is the
directory at `model_dir`. -/
def get_model_folders (model_dir : String) (t : DirTree) : List String :=
  let md := if (model_dir.data.getLastD ' ') == '/' then ⟨model_dir.data.dropLast⟩ else model_dir
  (walkTree md t).filter (fun root => ((countSep root : Int) - (countSep md : Int)) == 2)


/-- Example flat frame for the pixel-error claims: one image row, a file
column, and keypoint columns A, B, C holding 1, 2, 3 (the spec's example). -/
def exPixDf : DataFrame String :=
  ⟨["img0.png"],
   [("file", [Val.str "img0.png"]),
    ("A", [Val.num 1]), ("B", [Val.num 2]), ("C", [Val.num 3])]⟩

/-- The frame `get_precomputed_error exPixDf ["A","B","C"] "m"` returns — and,
through the `df_ = df` alias, the state of the caller's argument afterwards:
first column renamed to `img_file`, `model_name` and `mean = (1+2)/2` appended. -/
def exPixAfter : DataFrame String :=
  ⟨["img0.png"],
   [("img_file", [Val.str "img0.png"]),
    ("A", [Val.num 1]), ("B", [Val.num 2]), ("C", [Val.num 3]),
    ("model_name", [Val.str "m"]),
    ("mean", [Val.num (meanSpec [1, 2])])]⟩

/-- Example raw prediction frame for `compute_confidence`: one row, three
keypoints × (x, y, likelihood) plus a trailing `set` column (10 ≡ 1 mod 3). -/
def exConfDf : DataFrame String :=
  ⟨["img0.png"],
   [("A_x", [Val.num 10]), ("A_y", [Val.num 20]), ("A_l", [Val.num 1]),
    ("B_x", [Val.num 11]), ("B_y", [Val.num 21]), ("B_l", [Val.num 2]),
    ("C_x", [Val.num 12]), ("C_y", [Val.num 22]), ("C_l", [Val.num 3]),
    ("set", [Val.str "train"])]⟩

/-- Example two-level-header prediction frame for `concat_dfs`: an index-like
first column and keypoints A, B with (x, y, likelihood) triplets. -/
def exMultiDf : DataFrame (String × String) :=
  ⟨["img0.png"],
   [(("scorer", "bodyparts"), [Val.str "img0.png"]),
    (("A", "x"), [Val.num 1]), (("A", "y"), [Val.num 2]),
    (("A", "likelihood"), [Val.num 3]),
    (("B", "x"), [Val.num 4]), (("B", "y"), [Val.num 5]),
    (("B", "likelihood"), [Val.num 6])]⟩

/-- Example per-model frame for `get_df_scatter`: `img_file` and `set`
columns and one keypoint column `kp`. -/
def exScatterDf : DataFrame String :=
  ⟨["img0.png"],
   [("img_file", [Val.str "img0.png"]), ("set", [Val.str "train"]),
    ("kp", [Val.num 1])]⟩

/-- The example directory forest of the spec: under the root, `b/c` (with a
deeper `d`) and `x/y`. -/
def exForest : Forest :=
  .cons (.node "b" (.cons (.node "c" (.cons (.node "d" .nil) .nil)) .nil))
    (.cons (.node "x" (.cons (.node "y" .nil) .nil)) .nil)

/-- The example root directory `/a` of the spec (the root's own name is not
used by `os.walk`, only its path is). -/
def exTree : DirTree := .node "a" exForest

/-- The merged frame `concat_dfs [("m1", exMultiDf)]` produces: every column
label joined with "_", stripped, and suffixed with "_m1". -/
def exConcatDf : DataFrame String :=
  ⟨["img0.png"],
   [("scorer_bodyparts_m1", [Val.str "img0.png"]),
    ("A_x_m1", [Val.num 1]), ("A_y_m1", [Val.num 2]), ("A_likelihood_m1", [Val.num 3]),
    ("B_x_m1", [Val.num 4]), ("B_y_m1", [Val.num 5]), ("B_likelihood_m1", [Val.num 6])]⟩

/-- The keypoint names `concat_dfs [("m1", exMultiDf)]` reads off positions
1 and 4 of the example frame's column layout. -/
def exConcatBase : List String := ["A", "B"]

/-- The frame `compute_confidence` builds, as the spec describes it: one
confidence column per keypoint holding the third slot of that keypoint's
(x, y, confidence) triplet (cell `3*c + 2` of the row), then `model_name`,
then `mean` over the keypoint columns except the last, and — exactly when the
input's column count is ≡ 1 mod 3 — the trailing `set` column's values and
`img_file` from the input's row index. -/
def confFrame (df : DataFrame String) (kns : List String) (mn : String) : DataFrame String :=
  ⟨(List.range df.index.length).map (fun i => toString i),
   (kns.enum.map (fun p =>
      (p.2, (List.range df.index.length).map (fun r => cellAt df (3 * p.1 + 2) r))))
     ++ [("model_name", List.replicate df.index.length (Val.str mn)),
         ("mean", meanAxis1
           (kns.dropLast.map (fun k =>
             (List.range df.index.length).map
               (fun r => cellAt df (3 * kns.indexOf k + 2) r)))
           df.index.length)]
     ++ (if df.cols.length % 3 = 1 then
           [("set", (df.cols.getLastD ("", [])).2), ("img_file", df.index.map Val.str)]
         else [])⟩

/-- The `mean` column of a metric-computation result: `none` when the call
failed or the column is absent. -/
def meanColOf (e : Except String (DataFrame String)) : Option (List Val) :=
  match e with
  | .ok df => getCol df "mean"
  | .error _ => none

/-! Helper lemmas about the embedded operations. -/

theorem foldl_if_append (p : α → Bool) :
    ∀ (l : List α) (acc : List α),
      l.foldl (fun a x => if p x then a ++ [x] else a) acc = acc ++ l.filter p
  | [], acc => by simp
  | x :: t, acc => by
    by_cases h : p x = true
    · simp [h, foldl_if_append p t (acc ++ [x])]
    · simp only [Bool.not_eq_true] at h
      simp [h, foldl_if_append p t acc]

theorem labeled_body_eq (u : Bool) (f : String) (acc : List String) :
    (if strContains f "predictions" then
       if !(strContains f "new") && !u then acc ++ [f]
       else if strContains f "new" && u then acc ++ [f]
       else acc
     else acc)
    = (if strContains f "predictions" && (strContains f "new" == u) then acc ++ [f] else acc) := by
  cases h1 : strContains f "predictions" <;> cases h2 : strContains f "new" <;> cases u <;> simp

theorem labeled_fold_eq (u : Bool) :
    ∀ (files acc : List String),
      files.foldl (fun ret_files file =>
        if strContains file "predictions" then
          if !(strContains file "new") && !u then ret_files ++ [file]
          else if strContains file "new" && u then ret_files ++ [file]
          else ret_files
        else ret_files) acc
      = acc ++ files.filter (fun f => strContains f "predictions" && (strContains f "new" == u))
  | [], acc => by simp
  | f :: t, acc => by
    rw [List.foldl_cons, labeled_body_eq u f acc, labeled_fold_eq u t]
    by_cases h : (strContains f "predictions" && (strContains f "new" == u)) = true
    · simp [h, List.filter_cons]
    · simp only [Bool.not_eq_true] at h
      simp [h, List.filter_cons]

/-- C7: `update_labeled_file_list` returns, per folder, exactly the files whose
name contains "predictions" and whose containing "new" coincides with
`use_ood` — e.g. `["m_predictions.csv", "m_predictions_new.csv", "other.csv"]`
yields `["m_predictions.csv"]` for `use_ood = false` and
`["m_predictions_new.csv"]` for `use_ood = true`. -/
theorem c7_update_labeled_file_list (folders : List (List String)) (use_ood : Bool) :
    update_labeled_file_list folders use_ood
      = folders.map (fun files => files.filter (fun f =>
          strContains f "predictions" && (strContains f "new" == use_ood))) := by
  unfold update_labeled_file_list
  refine List.map_congr_left (fun files _ => ?_)
  simpa using labeled_fold_eq use_ood files []

/-- C10: on an empty mapping `concat_dfs` fails with the unbound-local error
(the loop body never binds `df_concat`), rather than returning an empty frame
and an empty keypoint list. -/
theorem c10_concat_dfs_empty :
    concat_dfs [] = .error "UnboundLocalError: local variable df_concat referenced before assignment" := rfl

theorem mem_setInsert (s : List String) (x v : String) :
    v ∈ setInsert s x ↔ v ∈ s ∨ v = x := by
  unfold setInsert
  by_cases h : x ∈ s
  · simp only [h, if_true]
    constructor
    · exact fun hv => Or.inl hv
    · rintro (hv | rfl) <;> assumption
  · simp [h]

theorem nodup_setInsert (s : List String) (x : String) (h : s.Nodup) :
    (setInsert s x).Nodup := by
  unfold setInsert
  by_cases hx : x ∈ s
  · simpa [hx]
  · simp [List.nodup_append, h, hx]

theorem videos_inner_body (ret : List String) (file : String) :
    (if strContains file "temporal" then
       setInsert ret (strSplitFirst file "_temporal_norm.csv")
     else if !(strContains file "temporal") && !(strContains file "pca") then
       setInsert ret (strSplitFirst file ".csv")
     else ret)
    = (match videoIdOf file with
       | some v => setInsert ret v
       | none => ret) := by
  unfold videoIdOf
  cases h1 : strContains file "temporal" <;> cases h2 : strContains file "pca" <;> simp [h1, h2]

theorem videos_inner_fold (files : List String) :
    ∀ (ret : List String) (v : String),
      (v ∈ files.foldl (fun ret file =>
          if strContains file "temporal" then
            setInsert ret (strSplitFirst file "_temporal_norm.csv")
          else if !(strContains file "temporal") && !(strContains file "pca") then
            setInsert ret (strSplitFirst file ".csv")
          else ret) ret
        ↔ v ∈ ret ∨ ∃ f ∈ files, videoIdOf f = some v) := by
  induction files with
  | nil => intro ret v; simp
  | cons f t ih =>
    intro ret v
    rw [List.foldl_cons, videos_inner_body ret f]
    cases hf : videoIdOf f with
    | none => rw [ih]; simp [hf]
    | some w =>
      rw [ih]
      simp only [mem_setInsert, List.mem_cons]
      constructor
      · rintro (⟨hv | rfl⟩ | ⟨g, hg, hgv⟩)
        · exact Or.inl hv
        · exact Or.inr ⟨f, Or.inl rfl, hf⟩
        · exact Or.inr ⟨g, Or.inr hg, hgv⟩
      · rintro (hv | ⟨g, (rfl | hg), hgv⟩)
        · exact Or.inl (Or.inl hv)
        · rw [hf] at hgv
          exact Or.inl (Or.inr (Option.some_injective _ hgv).symm)
        · exact Or.inr ⟨g, hg, hgv⟩

theorem videos_inner_fold_nodup (files : List String) :
    ∀ (ret : List String), ret.Nodup →
      (files.foldl (fun ret file =>
          if strContains file "temporal" then
            setInsert ret (strSplitFirst file "_temporal_norm.csv")
          else if !(strContains file "temporal") && !(strContains file "pca") then
            setInsert ret (strSplitFirst file ".csv")
          else ret) ret).Nodup := by
  induction files with
  | nil => intro ret h; simpa
  | cons f t ih =>
    intro ret h
    rw [List.foldl_cons, videos_inner_body ret f]
    cases hf : videoIdOf f with
    | none => exact ih ret h
    | some w => exact ih _ (nodup_setInsert ret w h)

theorem videos_outer_fold (folders : List (List String)) :
    ∀ (ret : List String) (v : String),
      (v ∈ folders.foldl (fun ret_videos model_preds =>
          model_preds.foldl (fun ret file =>
            if strContains file "temporal" then
              setInsert ret (strSplitFirst file "_temporal_norm.csv")
            else if !(strContains file "temporal") && !(strContains file "pca") then
              setInsert ret (strSplitFirst file ".csv")
            else ret) ret_videos) ret
        ↔ v ∈ ret ∨ ∃ files ∈ folders, ∃ f ∈ files, videoIdOf f = some v) := by
  induction folders with
  | nil => intro ret v; simp
  | cons files t ih =>
    intro ret v
    rw [List.foldl_cons, ih, videos_inner_fold files ret v]
    constructor
    · rintro (⟨hv | ⟨f, hf, hfv⟩⟩ | ⟨g, hg, hgv⟩)
      · exact Or.inl hv
      · exact Or.inr ⟨files, List.mem_cons_self _ _, f, hf, hfv⟩
      · exact Or.inr ⟨g, List.mem_cons_of_mem _ hg, hgv⟩
    · rintro (hv | ⟨g, hg, hgv⟩)
      · exact Or.inl (Or.inl hv)
      · rcases List.mem_cons.mp hg with rfl | hg
        · exact Or.inl (Or.inr hgv)
        · exact Or.inr ⟨g, hg, hgv⟩

theorem videos_outer_fold_nodup (folders : List (List String)) :
    ∀ (ret : List String), ret.Nodup →
      (folders.foldl (fun ret_videos model_preds =>
          model_preds.foldl (fun ret file =>
            if strContains file "temporal" then
              setInsert ret (strSplitFirst file "_temporal_norm.csv")
            else if !(strContains file "temporal") && !(strContains file "pca") then
              setInsert ret (strSplitFirst file ".csv")
            else ret) ret_videos) ret).Nodup := by
  induction folders with
  | nil => intro ret h; simpa
  | cons files t ih =>
    intro ret h
    rw [List.foldl_cons]
    exact ih _ (videos_inner_fold_nodup files ret h)

/-- C5 (amended): membership in `get_all_videos` is governed by `videoIdOf` —
when `"temporal"` occurs anywhere in a file name the inserted identifier is the
part before the first occurrence of `"_temporal_norm.csv"` (the whole name if
that substring is absent), else, when `"pca"` does not occur, the part before
the first occurrence of `".csv"`; otherwise the file is skipped.  The result is
duplicate-free (a set union across folders). -/
theorem c5_get_all_videos (folders : List (List String)) (v : String) :
    (v ∈ get_all_videos folders ↔ ∃ files ∈ folders, ∃ f ∈ files, videoIdOf f = some v)
      ∧ (get_all_videos folders).Nodup := by
  constructor
  · unfold get_all_videos
    rw [videos_outer_fold folders [] v]
    simp
  · exact videos_outer_fold_nodup folders [] List.nodup_nil

/-- C5 counterexample: `"temporalvid.csv"` does not end with
`"_temporal_norm.csv"` (so the claim's first branch does not apply) and
contains `"temporal"` (so the claim's second branch skips it), yet
`get_all_videos` returns it whole: the code tests `'temporal' in file`, not the
suffix, and `split` leaves the name intact when the separator is absent. -/
theorem c5_counterexample :
    get_all_videos [["temporalvid.csv"]] = ["temporalvid.csv"]
      ∧ strEndsWith "temporalvid.csv" "_temporal_norm.csv" = false
      ∧ strContains "temporalvid.csv" "temporal" = true := by
  refine ⟨by decide, by decide, by decide⟩

theorem treeNoSep_name (t : DirTree) (h : treeNoSep t = true) :
    t.name.data.contains '/' = false := by
  cases t with
  | node n cs =>
    simp only [treeNoSep, Bool.and_eq_true, Bool.not_eq_true'] at h
    exact h.1

theorem treeNoSep_children (t : DirTree) (h : treeNoSep t = true) :
    forestNoSep t.children = true := by
  cases t with
  | node n cs =>
    simp only [treeNoSep, Bool.and_eq_true] at h
    exact h.2

theorem countSep_extend (p n : String) (h : n.data.contains '/' = false) :
    countSep (p ++ "/" ++ n) = countSep p + 1 := by
  have hn : '/' ∉ n.data := by simpa using h
  unfold countSep
  rw [String.data_append, String.data_append, List.count_append, List.count_append,
    List.count_eq_zero_of_not_mem hn]
  rfl

mutual
theorem walkTree_mono : ∀ (t : DirTree) (path : String), treeNoSep t = true →
    ∀ r ∈ walkTree path t, countSep path ≤ countSep r
  | .node n cs, path, h, r, hr => by
    rw [walkTree, List.mem_cons] at hr
    rcases hr with rfl | hr
    · exact Nat.le_refl _
    · have hcs : forestNoSep cs = true := (treeNoSep_children (.node n cs) h)
      exact Nat.le_of_lt (walkForest_mono cs path hcs r hr)

theorem walkForest_mono : ∀ (ts : Forest) (path : String), forestNoSep ts = true →
    ∀ r ∈ walkForest path ts, countSep path < countSep r
  | .nil, path, h, r, hr => by simp [walkForest] at hr
  | .cons t ts, path, h, r, hr => by
    simp only [forestNoSep, Bool.and_eq_true] at h
    rw [walkForest, List.mem_append] at hr
    rcases hr with hr | hr
    · have hle := walkTree_mono t (path ++ "/" ++ t.name) h.1 r hr
      rw [countSep_extend path t.name (treeNoSep_name t h.1)] at hle
      omega
    · exact walkForest_mono ts path h.2 r hr
end

theorem int_count_pred (a b : Nat) :
    (((a : Int) - (b : Int)) == (2 : Int)) = (a == b + 2) := by
  rw [Bool.eq_iff_iff]
  simp only [beq_iff_eq]
  omega

mutual
theorem walkTree_filter : ∀ (t : DirTree) (path : String), treeNoSep t = true → ∀ (d : Nat),
    (walkTree path t).filter (fun r => countSep r == countSep path + d) = treeDirsAt path t d
  | .node n cs, path, h, d => by
    have hcs : forestNoSep cs = true := treeNoSep_children (.node n cs) h
    cases d with
    | zero =>
      rw [walkTree, treeDirsAt, List.filter_cons]
      have hself : (countSep path == countSep path + 0) = true := by simp
      rw [hself]
      have hnil : (walkForest path cs).filter (fun r => countSep r == countSep path + 0) = [] := by
        rw [List.filter_eq_nil_iff]
        intro r hr
        have := walkForest_mono cs path hcs r hr
        simp only [beq_iff_eq]
        omega
      rw [hnil]
      simp
    | succ d =>
      rw [walkTree, List.filter_cons]
      have hself : (countSep path == countSep path + (d + 1)) = false := by
        simp only [beq_eq_false_iff_ne]
        omega
      rw [hself, treeDirsAt]
      exact walkForest_filter cs path hcs d

theorem walkForest_filter : ∀ (ts : Forest) (path : String), forestNoSep ts = true → ∀ (d : Nat),
    (walkForest path ts).filter (fun r => countSep r == countSep path + (d + 1))
      = (forestToList ts).flatMap (fun c => treeDirsAt (path ++ "/" ++ c.name) c d)
  | .nil, path, h, d => by simp [walkForest, forestToList]
  | .cons t ts, path, h, d => by
    simp only [forestNoSep, Bool.and_eq_true] at h
    rw [walkForest, List.filter_append, forestToList]
    have hpred : ∀ r ∈ walkTree (path ++ "/" ++ t.name) t,
        (countSep r == countSep path + (d + 1))
          = (countSep r == countSep (path ++ "/" ++ t.name) + d) := by
      intro r _
      rw [countSep_extend path t.name (treeNoSep_name t h.1)]
      rw [Bool.eq_iff_iff]
      simp only [beq_iff_eq]
      omega
    rw [List.filter_congr hpred, walkTree_filter t (path ++ "/" ++ t.name) h.1 d,
      walkForest_filter ts path h.2 d, List.flatMap_cons]
end

theorem strEndsWith_getLastD (s : String) :
    strEndsWith s "/" = ((s.data.getLastD ' ') == '/') := by
  unfold strEndsWith
  rcases List.eq_nil_or_concat s.data with hd | ⟨l, a, hd⟩
  · rw [hd]; rfl
  · rw [hd, List.concat_eq_append, List.reverse_append, List.getLastD_concat]
    show startsWithL (a :: l.reverse) ['/'] = (a == '/')
    simp [startsWithL]

/-- C6: `get_model_folders` returns exactly the directories whose
path-separator count exceeds the (trailing-slash-stripped) root's by 2 —
equivalently, on a well-formed tree (no separator inside a directory name),
exactly the directories two levels below the root, in walk order; in
particular it is `[]`, with no error, when there are none.  `model_dir ≠ ""`
keeps the embedding in the domain where the source's `model_dir[-1]` access is
defined. -/
theorem c6_get_model_folders (model_dir : String) (t : DirTree)
    (_hne : model_dir ≠ "") (htr : strEndsWith model_dir "/" = false)
    (hsep : treeNoSep t = true) :
    get_model_folders model_dir t = treeDirsAt model_dir t 2 := by
  unfold get_model_folders
  have hstrip : ((model_dir.data.getLastD ' ') == '/') = false := by
    rw [← strEndsWith_getLastD]; exact htr
  simp only [hstrip, Bool.false_eq_true, if_false]
  have hpred : ∀ r ∈ walkTree model_dir t,
      (((countSep r : Int) - (countSep model_dir : Int)) == (2 : Int))
        = (countSep r == countSep model_dir + 2) :=
    fun r _ => int_count_pred _ _
  rw [List.filter_congr hpred]
  exact walkTree_filter t model_dir hsep 2

/-- Witness for C6 at the spec's example: root `/a` with directories
`/a/b/c`, `/a/b/c/d`, `/a/x/y` yields exactly `[/a/b/c, /a/x/y]`. -/
theorem c6_witness : get_model_folders "/a" exTree = ["/a/b/c", "/a/x/y"] := by
  rw [c6_get_model_folders "/a" exTree (by decide) (by decide) (by decide)]
  decide

theorem strip_cols_index (df : DataFrame (String × String)) (name : String) :
    (strip_cols_append_name df name).index = df.index := rfl

theorem strip_cols_cols (df : DataFrame (String × String)) (name : String) :
    (strip_cols_append_name df name).cols
      = df.cols.map (fun c => (pyStrip (c.1.1 ++ "_" ++ c.1.2) ++ "_" ++ name, c.2)) := by
  simp only [strip_cols_append_name, List.map_map]
  rfl

theorem strip_cols_wf (df : DataFrame (String × String)) (name : String)
    (h : df.wf = true) : (strip_cols_append_name df name).wf = true := by
  unfold DataFrame.wf at h ⊢
  rw [strip_cols_cols, strip_cols_index]
  refine List.all_eq_true.mpr ?_
  intro c hc
  rcases List.mem_map.mp hc with ⟨c0, hc0, rfl⟩
  exact List.all_eq_true.mp h c0 hc0

theorem concat_fold_index :
    ∀ (rest : List (String × DataFrame (String × String))) (acc : DataFrame String),
      (rest.foldl (fun acc md => concatCols acc (strip_cols_append_name md.2 md.1)) acc).index
        = acc.index
  | [], acc => rfl
  | md :: t, acc => by
    rw [List.foldl_cons, concat_fold_index t]
    rfl

theorem concat_fold_cols :
    ∀ (rest : List (String × DataFrame (String × String))) (acc : DataFrame String),
      (rest.foldl (fun acc md => concatCols acc (strip_cols_append_name md.2 md.1)) acc).cols
        = acc.cols ++ rest.flatMap (fun md => (strip_cols_append_name md.2 md.1).cols)
  | [], acc => by simp
  | md :: t, acc => by
    rw [List.foldl_cons, concat_fold_cols t, List.flatMap_cons, ← List.append_assoc]
    rfl

theorem concatCols_wf (a b : DataFrame String) (ha : a.wf = true) (hb : b.wf = true)
    (hlen : b.index.length = a.index.length) : (concatCols a b).wf = true := by
  unfold DataFrame.wf at ha hb ⊢
  unfold concatCols
  rw [List.all_append, ha]
  simp only [Bool.true_and]
  refine List.all_eq_true.mpr (fun c hc => ?_)
  have := List.all_eq_true.mp hb c hc
  simpa [hlen] using this

theorem concat_fold_wf :
    ∀ (rest : List (String × DataFrame (String × String))) (acc : DataFrame String),
      acc.wf = true →
      (∀ md ∈ rest, md.2.wf = true ∧ md.2.index.length = acc.index.length) →
      (rest.foldl (fun acc md => concatCols acc (strip_cols_append_name md.2 md.1)) acc).wf = true
  | [], acc, hacc, _ => hacc
  | md :: t, acc, hacc, hrest => by
    rw [List.foldl_cons]
    have hmd := hrest md (List.mem_cons_self _ _)
    refine concat_fold_wf t _ ?_ ?_
    · exact concatCols_wf acc _ hacc (strip_cols_wf _ _ hmd.1) (by rw [strip_cols_index]; exact hmd.2)
    · intro md' hmd'
      have h' := hrest md' (List.mem_cons_of_mem _ hmd')
      exact ⟨h'.1, h'.2⟩

/-- C2: for a non-empty mapping of model frames that all share one row index
and are well-formed, `concat_dfs` succeeds, the merged frame keeps that row
index (hence the common row count, in every column, by well-formedness), and
its column count is the sum of the per-model column counts. -/
theorem c2_concat_dfs (m0 : String) (d0 : DataFrame (String × String))
    (rest : List (String × DataFrame (String × String))) (I : List String)
    (hI : ∀ md ∈ (m0, d0) :: rest, md.2.index = I)
    (hwf : ∀ md ∈ (m0, d0) :: rest, md.2.wf = true) :
    ∃ df base, concat_dfs ((m0, d0) :: rest) = .ok (df, base)
      ∧ df.index = I
      ∧ df.cols.length = (((m0, d0) :: rest).map (fun md => md.2.cols.length)).sum
      ∧ df.wf = true := by
  refine ⟨_, _, rfl, ?_, ?_, ?_⟩
  · rw [concat_fold_index, strip_cols_index]
    exact hI (m0, d0) (List.mem_cons_self _ _)
  · rw [concat_fold_cols, List.length_append, List.length_flatMap]
    rw [strip_cols_cols, List.length_map, List.map_cons, List.sum_cons]
    congr 1
    refine congrArg List.sum ?_
    refine List.map_congr_left (fun md _ => ?_)
    simp only [Function.comp_apply]
    rw [strip_cols_cols, List.length_map]
  · have hd0 : d0.index = I := hI (m0, d0) (List.mem_cons_self _ _)
    refine concat_fold_wf rest _ (strip_cols_wf d0 m0 (hwf (m0, d0) (List.mem_cons_self _ _))) ?_
    intro md hmd
    refine ⟨hwf md (List.mem_cons_of_mem _ hmd), ?_⟩
    rw [strip_cols_index, hd0, hI md (List.mem_cons_of_mem _ hmd)]

/-- Witness for C2: two copies of the example two-level frame (7 columns, one
shared row) merge into a well-formed frame with 14 columns on the same index. -/
theorem c2_witness :
    ∃ df base, concat_dfs [("m1", exMultiDf), ("m2", exMultiDf)] = .ok (df, base)
      ∧ df.index = ["img0.png"]
      ∧ df.cols.length = ([("m1", exMultiDf), ("m2", exMultiDf)].map
          (fun md => md.2.cols.length)).sum
      ∧ df.wf = true :=
  c2_concat_dfs "m1" exMultiDf [("m2", exMultiDf)] ["img0.png"]
    (by intro md hmd; fin_cases hmd <;> rfl)
    (by intro md hmd; fin_cases hmd <;> rfl)

theorem everyThird_getElem? : ∀ (l : List α) (j : Nat),
    (everyThirdFromOne l)[j]? = l[3 * j + 1]?
  | [], j => by
    have h1 : everyThirdFromOne ([] : List α) = [] := rfl
    rw [h1, List.getElem?_eq_none (by simp), List.getElem?_eq_none (by simp)]
  | [a], j => by
    have h1 : everyThirdFromOne [a] = ([] : List α) := rfl
    rw [h1, List.getElem?_eq_none (by simp),
      List.getElem?_eq_none (by simp only [List.length_cons, List.length_nil]; omega)]
  | [a, b], j => by
    cases j with
    | zero => rfl
    | succ j =>
      have h1 : everyThirdFromOne [a, b] = [b] := rfl
      rw [h1, List.getElem?_eq_none (by simp only [List.length_cons, List.length_nil]; omega),
        List.getElem?_eq_none (by simp only [List.length_cons, List.length_nil]; omega)]
  | a :: b :: c :: t, j => by
    have h1 : everyThirdFromOne (a :: b :: c :: t) = b :: everyThirdFromOne t := rfl
    rw [h1]
    cases j with
    | zero => simp
    | succ j =>
      rw [List.getElem?_cons_succ, everyThird_getElem? t j]
      have harith : 3 * (j + 1) + 1 = 3 * j + 1 + 1 + 1 + 1 := by ring
      rw [harith, List.getElem?_cons_succ, List.getElem?_cons_succ, List.getElem?_cons_succ]

theorem flatMap_strip_names :
    ∀ (rest : List (String × DataFrame (String × String))),
      (rest.flatMap (fun md => (strip_cols_append_name md.2 md.1).cols)).map Prod.fst
        = rest.flatMap (fun md =>
            md.2.cols.map (fun c => pyStrip (c.1.1 ++ "_" ++ c.1.2) ++ "_" ++ md.1))
  | [] => rfl
  | md :: t => by
    rw [List.flatMap_cons, List.flatMap_cons, List.map_append, flatMap_strip_names t,
      strip_cols_cols, List.map_map]
    rfl

/-- C3: on a non-empty mapping, `concat_dfs` returns as keypoint names the
first level of the first frame's column labels at positions 1, 4, 7, …
(stride 3 from index 1, in the original column order, with no sorting), and the
merged frame's column labels are, per input frame in order, the two header
levels joined by "_", stripped, and suffixed with `"_" + model name`. -/
theorem c3_concat_dfs (m0 : String) (d0 : DataFrame (String × String))
    (rest : List (String × DataFrame (String × String)))
    (df : DataFrame String) (base : List String)
    (h : concat_dfs ((m0, d0) :: rest) = .ok (df, base)) :
    (∀ j : Nat, base[j]? = (d0.cols[3 * j + 1]?).map (fun c => c.1.1))
      ∧ df.cols.map Prod.fst
          = ((m0, d0) :: rest).flatMap (fun md =>
              md.2.cols.map (fun c => pyStrip (c.1.1 ++ "_" ++ c.1.2) ++ "_" ++ md.1)) := by
  simp only [concat_dfs, Except.ok.injEq, Prod.mk.injEq] at h
  obtain ⟨hdf, hbase⟩ := h
  constructor
  · intro j
    rw [← hbase, List.getElem?_map, everyThird_getElem?]
  · rw [← hdf, concat_fold_cols, List.map_append, List.flatMap_cons, flatMap_strip_names,
      strip_cols_cols, List.map_map]
    rfl

/-- Witness for C3 on the example frame under model name "m1": keypoint name
at slot 1 is the first level of column position 4, and the merged labels are
the joined-stripped-suffixed ones. -/
theorem c3_witness :
    (exConcatBase[1]? = (exMultiDf.cols[3 * 1 + 1]?).map (fun c => c.1.1))
      ∧ exConcatDf.cols.map Prod.fst
          = [("m1", exMultiDf)].flatMap (fun md =>
              md.2.cols.map (fun c => pyStrip (c.1.1 ++ "_" ++ c.1.2) ++ "_" ++ md.1)) := by
  have h := c3_concat_dfs "m1" exMultiDf [] exConcatDf exConcatBase rfl
  exact ⟨h.1 1, h.2⟩

theorem setCol_index (df : DataFrame String) (k : String) (v : List Val) :
    (setCol df k v).index = df.index := by
  unfold setCol
  split <;> rfl

theorem renameCol_index (df : DataFrame String) (old new : String) :
    (renameCol df old new).index = df.index := rfl

theorem renameCol_length (df : DataFrame String) (old new : String) :
    (renameCol df old new).cols.length = df.cols.length := by
  unfold renameCol
  simp

theorem setCol_length_ge (df : DataFrame String) (k : String) (v : List Val) :
    df.cols.length ≤ (setCol df k v).cols.length := by
  unfold setCol
  split <;> simp

theorem setCol_cols_of_not_mem (df : DataFrame String) (k : String) (v : List Val)
    (h : k ∉ df.cols.map Prod.fst) :
    (setCol df k v).cols = df.cols ++ [(k, v)] := by
  unfold setCol
  have hfind : (df.cols.find? (fun c => c.1 == k)) = none := by
    rw [List.find?_eq_none]
    intro c hc
    simp only [beq_iff_eq]
    intro hck
    exact h (List.mem_map.mpr ⟨c, hc, hck⟩)
  rw [hfind]
  rfl

theorem setCol_length_of_not_mem (df : DataFrame String) (k : String) (v : List Val)
    (h : k ∉ df.cols.map Prod.fst) :
    (setCol df k v).cols.length = df.cols.length + 1 := by
  rw [setCol_cols_of_not_mem df k v h]
  simp

theorem find?_map_set_ne (k k' : String) (v : List Val) (hne : k' ≠ k) :
    ∀ (cols : List (String × List Val)),
      (cols.map (fun c => if c.1 == k then (k, v) else c)).find? (fun c => c.1 == k')
        = cols.find? (fun c => c.1 == k')
  | [] => rfl
  | c :: t => by
    simp only [List.map_cons, List.find?_cons]
    by_cases hc : c.1 = k
    · have h1 : (if (c.1 == k) = true then (k, v) else c) = (k, v) := by simp [hc]
      have h2 : (((k, v) : String × List Val).1 == k') = false := by simp [Ne.symm hne]
      have h3 : (c.1 == k') = false := by simp [hc, Ne.symm hne]
      rw [h1, h2, h3]
      exact find?_map_set_ne k k' v hne t
    · have h1 : (if (c.1 == k) = true then (k, v) else c) = c := by simp [hc]
      rw [h1]
      cases hck : (c.1 == k')
      · exact find?_map_set_ne k k' v hne t
      · rfl

theorem find?_map_set_self (k : String) (v : List Val) :
    ∀ (cols : List (String × List Val)),
      (cols.find? (fun c => c.1 == k)).isSome = true →
      (cols.map (fun c => if c.1 == k then (k, v) else c)).find? (fun c => c.1 == k)
        = some (k, v)
  | [], h => by simp at h
  | c :: t, h => by
    simp only [List.map_cons, List.find?_cons]
    by_cases hc : c.1 = k
    · have h1 : (if (c.1 == k) = true then (k, v) else c) = (k, v) := by simp [hc]
      have h2 : (((k, v) : String × List Val).1 == k) = true := by simp
      rw [h1, h2]
    · have h1 : (if (c.1 == k) = true then (k, v) else c) = c := by simp [hc]
      have h3 : (c.1 == k) = false := by simp [hc]
      rw [h1, h3]
      exact find?_map_set_self k v t (by simpa [List.find?_cons, h3] using h)

theorem getCol_setCol_self (df : DataFrame String) (k : String) (v : List Val) :
    getCol (setCol df k v) k = some v := by
  unfold getCol setCol
  split
  · next h =>
    rw [find?_map_set_self k v df.cols h]
    rfl
  · rw [List.find?_append]
    have h1 : (df.cols.find? (fun c => c.1 == k)) = none := by
      next h => exact Option.not_isSome_iff_eq_none.mp h
    rw [h1]
    simp

theorem find?_map_rename_ne (old new k : String) (hold : old ≠ k) (hnew : new ≠ k) :
    ∀ (cols : List (String × List Val)),
      (cols.map (fun c => if c.1 == old then (new, c.2) else c)).find? (fun c => c.1 == k)
        = cols.find? (fun c => c.1 == k)
  | [] => rfl
  | c :: t => by
    simp only [List.map_cons, List.find?_cons]
    by_cases hc : c.1 = old
    · have h1 : (if (c.1 == old) = true then (new, c.2) else c) = (new, c.2) := by simp [hc]
      have h2 : ((new : String) == k) = false := by simp [hnew]
      have h3 : (c.1 == k) = false := by simp [hc, hold]
      rw [h1, h2, h3]
      exact find?_map_rename_ne old new k hold hnew t
    · have h1 : (if (c.1 == old) = true then (new, c.2) else c) = c := by simp [hc]
      rw [h1]
      cases hck : (c.1 == k)
      · exact find?_map_rename_ne old new k hold hnew t
      · rfl

theorem getCol_renameCol_ne (df : DataFrame String) (old new k : String)
    (hold : old ≠ k) (hnew : new ≠ k) :
    getCol (renameCol df old new) k = getCol df k := by
  unfold getCol renameCol
  rw [find?_map_rename_ne old new k hold hnew]

theorem setCol_head_fst (df : DataFrame String) (k : String) (v : List Val)
    (h : df.cols ≠ []) :
    ((setCol df k v).cols.headD ("", [])).1 = (df.cols.headD ("", [])).1 := by
  obtain ⟨ix, cols⟩ := df
  cases cols with
  | nil => exact absurd rfl h
  | cons c t =>
    unfold setCol
    split
    · simp only [List.map_cons, List.headD_cons]
      by_cases hc1 : c.1 = k
      · simp [hc1]
      · simp [hc1]
    · rfl

theorem numsOf_map_num : ∀ (qs : List ℚ), numsOf (qs.map Val.num) = qs
  | [] => rfl
  | q :: t => by
    have ih := numsOf_map_num t
    unfold numsOf at ih ⊢
    simp only [List.map_cons, List.filterMap_cons]
    rw [ih]

theorem rowMean_map_num (qs : List ℚ) (h : qs ≠ []) :
    rowMean (qs.map Val.num) = .num (meanSpec qs) := by
  unfold rowMean meanSpec
  rw [numsOf_map_num]
  have hlen : qs.length ≠ 0 := by simpa using h
  simp [hlen]

theorem getD_map_num : ∀ (qs : List ℚ) (r : Nat), r < qs.length →
    (qs.map Val.num).getD r Val.nan = Val.num (qs.getD r 0)
  | [], r, h => by simp at h
  | q :: t, 0, _ => rfl
  | q :: t, r + 1, h => by
    simp only [List.map_cons, List.getD_cons_succ]
    exact getD_map_num t r (by simpa using h)

theorem map_range_getD {β : Type} (f : Nat → β) (d : β) (n r : Nat) (h : r < n) :
    ((List.range n).map f).getD r d = f r := by
  rw [List.getD_eq_getElem?_getD, List.getElem?_map, List.getElem?_range h]
  rfl

/-- C4 (amended): the module's functions are not all pure in their arguments:
in `get_precomputed_error` the statement `df_ = df` aliases the argument, so
the caller's frame is mutated in place and, after the call, equals the
returned frame (first conjunct, the aliasing law of the embedding); moreover
whenever the call succeeds on a frame without a `model_name` column, the
returned (= post-call) frame strictly differs from the input — it has gained
at least the `model_name` column. -/
theorem c4_get_precomputed_error_mutates (df : DataFrame String)
    (kns : List String) (mn : String) :
    get_precomputed_error_df_after df kns mn = get_precomputed_error df kns mn
      ∧ (∀ df', "model_name" ∉ df.cols.map Prod.fst →
          get_precomputed_error df kns mn = Except.ok df' →
          df.cols.length < df'.cols.length ∧ df' ≠ df) := by
  refine ⟨rfl, ?_⟩
  intro df' hnm h
  simp only [get_precomputed_error] at h
  cases hsel : selectCols
      (setCol df "model_name" (List.replicate df.index.length (Val.str mn)))
      kns.dropLast with
  | none =>
    rw [hsel] at h
    exact absurd h (by simp)
  | some sel =>
    rw [hsel] at h
    simp only [Except.ok.injEq] at h
    have hlen : df.cols.length < df'.cols.length := by
      rw [← h, renameCol_length]
      have h1 : (setCol df "model_name"
          (List.replicate df.index.length (Val.str mn))).cols.length
            = df.cols.length + 1 :=
        setCol_length_of_not_mem df _ _ hnm
      have h2 := setCol_length_ge
        (setCol df "model_name" (List.replicate df.index.length (Val.str mn)))
        "mean" (meanAxis1 sel df.index.length)
      omega
    refine ⟨hlen, ?_⟩
    intro heq
    rw [heq] at hlen
    omega

/-- C4 counterexample: on the example frame (which has no `model_name`
column), the caller's frame after `get_precomputed_error` — equal to the
returned frame because `df_ = df` aliases — differs from the frame that was
passed in: the claim that the input table is left unchanged is false. -/
theorem c4_counterexample :
    get_precomputed_error_df_after exPixDf ["A", "B", "C"] "m" = Except.ok exPixAfter
      ∧ exPixAfter ≠ exPixDf := by
  refine ⟨rfl, by decide⟩

/-- Witness for the amended C4 at the example frame. -/
theorem c4_witness :
    (get_precomputed_error_df_after exPixDf ["A", "B", "C"] "m"
        = get_precomputed_error exPixDf ["A", "B", "C"] "m")
      ∧ (exPixDf.cols.length < exPixAfter.cols.length ∧ exPixAfter ≠ exPixDf) := by
  have h := c4_get_precomputed_error_mutates exPixDf ["A", "B", "C"] "m"
  exact ⟨h.1, h.2 exPixAfter (by decide) rfl⟩

/-- C9 (amended): `get_df_scatter` performs no explicit validation of the
model count.  With fewer than two model names the dict construction reaches
the subscript `model_names[0]` or `model_names[1]` and fails with IndexError
(after the earlier `img_file` / `set` / keypoint lookups succeed) — it does
not return output; with more than two model names it silently ignores the
extras and behaves exactly as with the first two. -/
theorem c9_get_df_scatter :
    (∀ (df_0 df_1 : DataFrame String) (data_type : String) (model_names : List String)
        (k0 : String) (kns : List String) (img sv kv : List Val),
        model_names.length < 2 →
        getCol df_0 "img_file" = some img →
        getCol df_0 "set" = some sv →
        getCol df_0 k0 = some kv →
        get_df_scatter df_0 df_1 data_type model_names (k0 :: kns)
          = .error "IndexError: list index out of range")
      ∧ (∀ (df_0 df_1 : DataFrame String) (data_type : String) (m0 m1 : String)
          (rest kns : List String),
          get_df_scatter df_0 df_1 data_type (m0 :: m1 :: rest) kns
            = get_df_scatter df_0 df_1 data_type [m0, m1] kns) := by
  constructor
  · intro df_0 df_1 data_type model_names k0 kns img sv kv hlen himg hset hkv
    have hrow : scatterRow df_0 df_1 data_type model_names k0
        = .error "IndexError: list index out of range" := by
      unfold scatterRow
      match model_names, hlen with
      | [], _ =>
        simp [ofOption, himg, hset, Bind.bind, Except.bind]
      | [m], _ =>
        simp [ofOption, himg, hset, hkv, Bind.bind, Except.bind]
    unfold get_df_scatter
    rw [List.mapM_cons]
    simp [hrow, Bind.bind, Except.bind]
  · intro df_0 df_1 data_type m0 m1 rest kns
    have hbody : scatterRow df_0 df_1 data_type (m0 :: m1 :: rest)
        = scatterRow df_0 df_1 data_type [m0, m1] := by
      funext k
      rfl
    unfold get_df_scatter
    rw [hbody]

/-- C9 counterexample: with a single model name and otherwise well-formed
frames, `get_df_scatter` raises IndexError — it does not "produce output
rather than raising an error" as the claim states. -/
theorem c9_counterexample :
    get_df_scatter exScatterDf exScatterDf "train" ["a"] ["kp"]
      = .error "IndexError: list index out of range" := rfl

/-- Witness for the amended C9: one model name raises IndexError; extra model
names beyond two are ignored. -/
theorem c9_witness :
    (get_df_scatter exScatterDf exScatterDf "train" ["a"] ["kp", "kp"]
        = .error "IndexError: list index out of range")
      ∧ (get_df_scatter exScatterDf exScatterDf "train" ["a", "b", "c"] ["kp"]
          = get_df_scatter exScatterDf exScatterDf "train" ["a", "b"] ["kp"]) := by
  refine ⟨c9_get_df_scatter.1 exScatterDf exScatterDf "train" ["a"] "kp" ["kp"]
      [Val.str "img0.png"] [Val.str "train"] [Val.num 1] (by decide) rfl rfl rfl,
    c9_get_df_scatter.2 exScatterDf exScatterDf "train" "a" "b" ["c"] ["kp"]⟩

theorem map_set_no_match (k : String) (v : List Val) :
    ∀ (l : List (String × List Val)), k ∉ l.map Prod.fst →
      l.map (fun c => if c.1 == k then (k, v) else c) = l
  | [], _ => rfl
  | c :: t, h => by
    have hc : c.1 ≠ k := fun hh => h (by simp [hh])
    have ht : k ∉ t.map Prod.fst := fun hh => h (by simp [hh])
    simp only [List.map_cons, map_set_no_match k v t ht]
    simp [hc]

theorem setCol_replace_mid (ix : List String) (pre rest : List (String × List Val))
    (k : String) (v old : List Val)
    (hpre : k ∉ pre.map Prod.fst) (hrest : k ∉ rest.map Prod.fst) :
    setCol ⟨ix, pre ++ (k, old) :: rest⟩ k v = ⟨ix, pre ++ (k, v) :: rest⟩ := by
  unfold setCol
  split
  · rw [List.map_append, List.map_cons, map_set_no_match k v pre hpre,
      map_set_no_match k v rest hrest]
    simp
  · next hn =>
    exact absurd (by rw [List.find?_isSome]; exact ⟨(k, old), by simp, by simp⟩) hn

theorem fold_setCol_enumFrom (f : Nat → List Val) (ix : List String) :
    ∀ (kns : List String) (n : Nat) (pre : List (String × List Val)),
      kns.Nodup → (∀ k ∈ kns, k ∉ pre.map Prod.fst) →
      ((kns.enumFrom n).foldl (fun acc p => setCol acc p.2 (f p.1))
          (⟨ix, pre ++ kns.map (fun k => (k, []))⟩ : DataFrame String))
        = ⟨ix, pre ++ (kns.enumFrom n).map (fun p => (p.2, f p.1))⟩
  | [], n, pre, _, _ => by simp
  | k :: rest, n, pre, hnodup, hpre => by
    have hkrest : k ∉ rest := (List.nodup_cons.mp hnodup).1
    have hrest : rest.Nodup := (List.nodup_cons.mp hnodup).2
    rw [List.enumFrom_cons, List.foldl_cons]
    have hstep : setCol ⟨ix, pre ++ (k :: rest).map (fun k => (k, []))⟩ k (f n)
        = ⟨ix, (pre ++ [(k, f n)]) ++ rest.map (fun k => (k, ([] : List Val)))⟩ := by
      rw [List.map_cons]
      rw [setCol_replace_mid ix pre (rest.map (fun k => (k, []))) k (f n) []
        (hpre k (List.mem_cons_self _ _))
        (by simpa [List.map_map, Function.comp] using hkrest)]
      simp
    rw [show ((n, k).2 : String) = k from rfl, show ((n, k).1 : Nat) = n from rfl] at *
    rw [hstep]
    rw [fold_setCol_enumFrom f ix rest (n + 1) (pre ++ [(k, f n)]) hrest ?hpre']
    · rw [List.map_cons]
      simp [List.append_assoc]
    case hpre' =>
      intro k' hk'
      rw [List.map_append]
      simp only [List.mem_append, not_or]
      refine ⟨fun hh => hpre k' (List.mem_cons_of_mem _ hk') hh, ?_⟩
      have : k' ≠ k := fun hh => hkrest (hh ▸ hk')
      simp [this]

theorem setCol_eq_of_not_mem (df : DataFrame String) (k : String) (v : List Val)
    (h : k ∉ df.cols.map Prod.fst) :
    setCol df k v = ⟨df.index, df.cols ++ [(k, v)]⟩ := by
  unfold setCol
  have hf : (df.cols.find? (fun c => c.1 == k)) = none := by
    rw [List.find?_eq_none]
    intro c hc
    simp only [beq_iff_eq]
    intro hck
    exact h (List.mem_map.mpr ⟨c, hc, hck⟩)
  rw [hf]
  rfl

theorem enumMap_labels (f : Nat → List Val) :
    ∀ (kns : List String) (n : Nat),
      ((kns.enumFrom n).map (fun p => (p.2, f p.1))).map Prod.fst = kns
  | [], _ => rfl
  | k :: t, n => by
    rw [List.enumFrom_cons, List.map_cons, List.map_cons, enumMap_labels f t (n + 1)]

theorem getD_dropLast_of_lt : ∀ (l : List α) (i : Nat) (d : α), i < l.length - 1 →
    l.dropLast.getD i d = l.getD i d
  | [], i, d, h => by simp at h
  | [x], i, d, h => by simp at h
  | x :: y :: t, 0, d, h => rfl
  | x :: y :: t, i + 1, d, h => by
    show (y :: t).dropLast.getD i d = (y :: t).getD i d
    refine getD_dropLast_of_lt (y :: t) i d ?_
    simp only [List.length_cons] at h ⊢
    omega

theorem setCol_cols_ne_nil (df : DataFrame String) (k : String) (v : List Val) :
    (setCol df k v).cols ≠ [] := by
  unfold setCol
  split
  · next hs =>
    intro hmap
    rw [List.map_eq_nil_iff] at hmap
    rw [hmap] at hs
    simp at hs
  · simp

theorem meanAxis1_num (cols : List (List ℚ)) (n : Nat)
    (hlen : ∀ c ∈ cols, c.length = n) (hne : cols ≠ []) :
    meanAxis1 (cols.map (fun c => c.map Val.num)) n
      = (List.range n).map (fun r => Val.num (meanSpec (cols.map (fun c => c.getD r 0)))) := by
  unfold meanAxis1
  refine List.map_congr_left (fun r hr => ?_)
  have hr' := List.mem_range.mp hr
  rw [List.map_map]
  have hmaps : cols.map ((fun col => col.getD r Val.nan) ∘ (fun c => c.map Val.num))
      = (cols.map (fun c => c.getD r 0)).map Val.num := by
    rw [List.map_map]
    refine List.map_congr_left (fun c hc => ?_)
    exact getD_map_num c r (by rw [hlen c hc]; exact hr')
  rw [hmaps]
  refine rowMean_map_num _ ?_
  simpa using hne

theorem dropLast_getElem?_of_lt : ∀ (l : List α) (j : Nat), j < l.length - 1 →
    l.dropLast[j]? = l[j]?
  | [], j, h => by simp at h
  | [x], j, h => by simp at h
  | x :: y :: t, 0, h => by
    rw [show (x :: y :: t).dropLast = x :: (y :: t).dropLast from rfl,
      List.getElem?_cons_zero, List.getElem?_cons_zero]
  | x :: y :: t, j + 1, h => by
    rw [show (x :: y :: t).dropLast = x :: (y :: t).dropLast from rfl,
      List.getElem?_cons_succ, List.getElem?_cons_succ]
    refine dropLast_getElem?_of_lt (y :: t) j ?_
    simp only [List.length_cons] at h ⊢
    omega

theorem dropLast_indexOf_map {β : Type} (kns : List String) (hnodup : kns.Nodup)
    (F : Nat → β) :
    kns.dropLast.map (fun k => F (kns.indexOf k)) = (List.range (kns.length - 1)).map F := by
  refine List.ext_getElem? (fun j => ?_)
  rw [List.getElem?_map, List.getElem?_map]
  by_cases hj : j < kns.length - 1
  · rw [dropLast_getElem?_of_lt kns j hj, List.getElem?_range (by omega)]
    have hjlen : j < kns.length := by omega
    rw [List.getElem?_eq_getElem hjlen]
    simp [List.indexOf_getElem hnodup j hjlen]
  · rw [List.getElem?_eq_none (l := kns.dropLast) (by simp only [List.length_dropLast]; omega),
      List.getElem?_eq_none (l := List.range (kns.length - 1))
        (by simp only [List.length_range]; omega)]
    rfl

theorem enumFrom_fst_lt : ∀ (l : List α) (n : Nat) (p : Nat × α),
    p ∈ l.enumFrom n → p.1 < n + l.length
  | [], _, p, h => absurd h (List.not_mem_nil p)
  | a :: t, n, p, h => by
    rw [List.enumFrom_cons, List.mem_cons] at h
    rcases h with rfl | h
    · simp
    · have := enumFrom_fst_lt t (n + 1) p h
      simp only [List.length_cons] at this ⊢
      omega

theorem filter_map_set_ne (k name : String) (v : List Val) (hne : k ≠ name) :
    ∀ (l : List (String × List Val)),
      (l.map (fun c => if c.1 == name then (name, v) else c)).filter (fun c => c.1 == k)
        = l.filter (fun c => c.1 == k)
  | [] => rfl
  | c :: t => by
    have ih := filter_map_set_ne k name v hne t
    by_cases hc : c.1 = name
    · simp only [List.map_cons, List.filter_cons, hc, beq_self_eq_true, if_true]
      have h2 : ((name : String) == k) = false := by simp [Ne.symm hne]
      simp only [h2, Bool.false_eq_true, if_false]
      exact ih
    · have hcb : (c.1 == name) = false := by simp [hc]
      simp only [List.map_cons, List.filter_cons, hcb, Bool.false_eq_true, if_false]
      rw [ih]

theorem filter_setCol_ne (df : DataFrame String) (name k : String) (v : List Val)
    (hne : k ≠ name) :
    (setCol df name v).cols.filter (fun c => c.1 == k)
      = df.cols.filter (fun c => c.1 == k) := by
  unfold setCol
  split
  · exact filter_map_set_ne k name v hne df.cols
  · show (df.cols ++ [(name, v)]).filter (fun c => c.1 == k) = _
    rw [List.filter_append]
    have h2 : ((name : String) == k) = false := by simp [Ne.symm hne]
    simp [h2]

theorem filter_enumMap_nomatch (f : Nat → List Val) :
    ∀ (kns : List String) (n : Nat) (k : String), k ∉ kns →
      ((kns.enumFrom n).map (fun p => (p.2, f p.1))).filter (fun c => c.1 == k) = []
  | [], _, _, _ => rfl
  | k' :: rest, n, k, hk => by
    have hne : (k' == k) = false := by
      simp only [beq_eq_false_iff_ne, ne_eq]
      intro hh
      exact hk (hh ▸ List.mem_cons_self k' rest)
    rw [List.enumFrom_cons, List.map_cons, List.filter_cons]
    simp only [hne, Bool.false_eq_true, if_false]
    exact filter_enumMap_nomatch f rest (n + 1) k (fun hh => hk (List.mem_cons_of_mem _ hh))

theorem filter_enumMap (f : Nat → List Val) :
    ∀ (kns : List String) (n : Nat) (k : String), kns.Nodup → k ∈ kns →
      ((kns.enumFrom n).map (fun p => (p.2, f p.1))).filter (fun c => c.1 == k)
        = [(k, f (n + kns.indexOf k))]
  | [], _, _, _, hk => absurd hk (List.not_mem_nil _)
  | k' :: rest, n, k, hnodup, hk => by
    have hkrest : k' ∉ rest := (List.nodup_cons.mp hnodup).1
    have hrest : rest.Nodup := (List.nodup_cons.mp hnodup).2
    rw [List.enumFrom_cons, List.map_cons, List.filter_cons]
    by_cases he : k' = k
    · subst he
      simp only [beq_self_eq_true, if_true]
      rw [filter_enumMap_nomatch f rest (n + 1) k' hkrest]
      have h2 : List.indexOf k' (k' :: rest) = 0 := by
        simp [List.indexOf_cons]
      rw [h2, Nat.add_zero]
    · have hne : (k' == k) = false := by simp [he]
      simp only [hne, Bool.false_eq_true, if_false]
      have hk2 : k ∈ rest := by
        rcases List.mem_cons.mp hk with rfl | hh
        · exact absurd rfl he
        · exact hh
      rw [filter_enumMap f rest (n + 1) k hrest hk2]
      have h2 : List.indexOf k (k' :: rest) = List.indexOf k rest + 1 := by
        simp [List.indexOf_cons, he]
      rw [h2]
      have h3 : n + 1 + List.indexOf k rest = n + (List.indexOf k rest + 1) := by omega
      rw [h3]

theorem flatMap_filter_of_unique (l : List (String × List Val)) (v : String → List Val) :
    ∀ (names : List String), (∀ k ∈ names, l.filter (fun c => c.1 == k) = [(k, v k)]) →
      names.flatMap (fun k => (l.filter (fun c => c.1 == k)).map Prod.snd) = names.map v
  | [], _ => rfl
  | k :: t, h => by
    rw [List.flatMap_cons, h k (List.mem_cons_self _ _),
      flatMap_filter_of_unique l v t (fun k' hk' => h k' (List.mem_cons_of_mem _ hk'))]
    rfl

theorem selectCols_of_unique (df : DataFrame String) (names : List String)
    (v : String → List Val)
    (h : ∀ k ∈ names, df.cols.filter (fun c => c.1 == k) = [(k, v k)]) :
    selectCols df names = some (names.map v) := by
  unfold selectCols
  have hall : names.all (fun k => df.cols.any (fun c => c.1 == k)) = true := by
    rw [List.all_eq_true]
    intro k hk
    have hmem : (k, v k) ∈ df.cols.filter (fun c => c.1 == k) := by
      rw [h k hk]
      exact List.mem_cons_self _ _
    rcases List.mem_filter.mp hmem with ⟨hmc, hpred⟩
    exact List.any_eq_true.mpr ⟨(k, v k), hmc, hpred⟩
  simp only [hall, if_true]
  exact congrArg some (flatMap_filter_of_unique df.cols v names h)

theorem compute_confidence_struct (df : DataFrame String) (kns : List String) (mn : String)
    (hrows : df.index.length ≠ 0)
    (hm1 : df.cols.length % 3 = 1)
    (hk : 3 * kns.length = df.cols.length - 1)
    (hkne : kns ≠ [])
    (hnodup : kns.Nodup)
    (hmn : "model_name" ∉ kns) (hmean : "mean" ∉ kns)
    (hset : "set" ∉ kns) (himg : "img_file" ∉ kns) :
    compute_confidence df kns mn = Except.ok
      ⟨(List.range df.index.length).map (fun i => toString i),
       (kns.enum.map (fun p =>
          (p.2, (List.range df.index.length).map (fun r => cellAt df (3 * p.1 + 2) r))))
         ++ [("model_name", List.replicate df.index.length (Val.str mn)),
             ("mean", meanAxis1
               (kns.dropLast.map (fun k =>
                 (List.range df.index.length).map
                   (fun r => cellAt df (3 * kns.indexOf k + 2) r)))
               df.index.length)]
         ++ [("set", (df.cols.getLastD ("", [])).2), ("img_file", df.index.map Val.str)]⟩ := by
  have hkfalse : kns.isEmpty = false := by
    cases kns with
    | nil => exact absurd rfl hkne
    | cons a t => rfl
  have hlen1 : df.cols.dropLast.length = 3 * kns.length := by
    rw [List.length_dropLast, hk]
  have hg1 : (df.index.length == 0 || df.cols.dropLast.length % 3 != 0) = false := by
    rw [hlen1]
    simp [hrows, Nat.mul_mod_right]
  have hg2 : ¬(df.cols.dropLast.length / 3 < kns.length) := by
    rw [hlen1, Nat.mul_div_cancel_left _ (by norm_num : 0 < 3)]
    omega
  have hfold := fold_setCol_enumFrom
    (fun c => (List.range df.index.length).map
      (fun r => ((df.cols.dropLast.getD (3 * c + 2) ("", [])).2).getD r Val.nan))
    ((List.range df.index.length).map (fun i => toString i)) kns 0 [] hnodup (by simp)
  simp only [List.nil_append] at hfold
  have hlabels : ((kns.enumFrom 0).map (fun p =>
      (p.2, (List.range df.index.length).map
        (fun r => ((df.cols.dropLast.getD (3 * p.1 + 2) ("", [])).2).getD r Val.nan)))).map
          Prod.fst = kns :=
    enumMap_labels (fun c => (List.range df.index.length).map
      (fun r => ((df.cols.dropLast.getD (3 * c + 2) ("", [])).2).getD r Val.nan)) kns 0
  have hd1 := setCol_eq_of_not_mem
    ⟨(List.range df.index.length).map (fun i => toString i),
     (kns.enumFrom 0).map (fun p =>
       (p.2, (List.range df.index.length).map
         (fun r => ((df.cols.dropLast.getD (3 * p.1 + 2) ("", [])).2).getD r Val.nan)))⟩
    "model_name" (List.replicate df.index.length (Val.str mn))
    (by rw [hlabels]; exact hmn)
  have hfilterk : ∀ k ∈ kns.dropLast,
      (((kns.enumFrom 0).map (fun p =>
          (p.2, (List.range df.index.length).map
            (fun r => ((df.cols.dropLast.getD (3 * p.1 + 2) ("", [])).2).getD r Val.nan))))
          ++ [("model_name", List.replicate df.index.length (Val.str mn))]).filter
            (fun c => c.1 == k)
        = [(k, (List.range df.index.length).map
            (fun r => ((df.cols.dropLast.getD (3 * kns.indexOf k + 2) ("", [])).2).getD r
              Val.nan))] := by
    intro k hk'
    have hkk : k ∈ kns := List.dropLast_subset _ hk'
    rw [List.filter_append]
    have hmnk : (("model_name" : String) == k) = false := by
      simp only [beq_eq_false_iff_ne, ne_eq]
      intro hh
      exact hmn (hh ▸ hkk)
    have h2 : [(("model_name" : String), List.replicate df.index.length (Val.str mn))].filter
        (fun c => c.1 == k) = [] := by
      simp [hmnk]
    rw [h2, List.append_nil]
    have h := filter_enumMap
      (fun c => (List.range df.index.length).map
        (fun r => ((df.cols.dropLast.getD (3 * c + 2) ("", [])).2).getD r Val.nan))
      kns 0 k hnodup hkk
    simpa using h
  have hsel := selectCols_of_unique
    ⟨(List.range df.index.length).map (fun i => toString i),
     ((kns.enumFrom 0).map (fun p =>
       (p.2, (List.range df.index.length).map
         (fun r => ((df.cols.dropLast.getD (3 * p.1 + 2) ("", [])).2).getD r Val.nan))))
       ++ [("model_name", List.replicate df.index.length (Val.str mn))]⟩
    kns.dropLast
    (fun k => (List.range df.index.length).map
      (fun r => ((df.cols.dropLast.getD (3 * kns.indexOf k + 2) ("", [])).2).getD r Val.nan))
    hfilterk
  simp only [compute_confidence, hm1, List.enum, beq_self_eq_true, eq_self_iff_true, if_true,
    hg1, Bool.false_eq_true, if_false, hkfalse]
  rw [if_neg hg2]
  rw [hfold, hd1]
  rw [show selectCols
      ⟨(List.range df.index.length).map (fun i => toString i),
        ((kns.enumFrom 0).map (fun p =>
          (p.2, (List.range df.index.length).map
            (fun r => ((df.cols.dropLast.getD (3 * p.1 + 2) ("", [])).2).getD r Val.nan))))
          ++ [("model_name", List.replicate df.index.length (Val.str mn))]⟩ kns.dropLast
      = some (kns.dropLast.map (fun k => (List.range df.index.length).map
          (fun r => ((df.cols.dropLast.getD (3 * kns.indexOf k + 2) ("", [])).2).getD r Val.nan)))
    from hsel]
  have hconv1 : (kns.enumFrom 0).map (fun p =>
        (p.2, (List.range df.index.length).map
          (fun r => ((df.cols.dropLast.getD (3 * p.1 + 2) ("", [])).2).getD r Val.nan)))
      = (kns.enumFrom 0).map (fun p =>
        (p.2, (List.range df.index.length).map (fun r => cellAt df (3 * p.1 + 2) r))) := by
    refine List.map_congr_left (fun p hp => ?_)
    have hplt : p.1 < kns.length := by
      have := enumFrom_fst_lt kns 0 p hp
      omega
    have hgd : df.cols.dropLast.getD (3 * p.1 + 2) ("", [])
        = df.cols.getD (3 * p.1 + 2) ("", []) :=
      getD_dropLast_of_lt df.cols (3 * p.1 + 2) ("", []) (by omega)
    unfold cellAt
    rw [hgd]
  have hconv2 : kns.dropLast.map (fun k =>
        (List.range df.index.length).map
          (fun r => ((df.cols.dropLast.getD (3 * kns.indexOf k + 2) ("", [])).2).getD r Val.nan))
      = kns.dropLast.map (fun k =>
        (List.range df.index.length).map
          (fun r => cellAt df (3 * kns.indexOf k + 2) r)) := by
    refine List.map_congr_left (fun k hk' => ?_)
    have hklt : kns.indexOf k < kns.length :=
      List.indexOf_lt_length.mpr (List.dropLast_subset _ hk')
    have hgd : df.cols.dropLast.getD (3 * kns.indexOf k + 2) ("", [])
        = df.cols.getD (3 * kns.indexOf k + 2) ("", []) :=
      getD_dropLast_of_lt df.cols (3 * kns.indexOf k + 2) ("", []) (by omega)
    unfold cellAt
    rw [hgd]
  have h2 := setCol_eq_of_not_mem
    ⟨(List.range df.index.length).map (fun i => toString i),
     ((kns.enumFrom 0).map (fun p =>
       (p.2, (List.range df.index.length).map
         (fun r => ((df.cols.dropLast.getD (3 * p.1 + 2) ("", [])).2).getD r Val.nan))))
       ++ [("model_name", List.replicate df.index.length (Val.str mn))]⟩
    "mean"
    (meanAxis1 (kns.dropLast.map (fun k =>
      (List.range df.index.length).map
        (fun r => ((df.cols.dropLast.getD (3 * kns.indexOf k + 2) ("", [])).2).getD r Val.nan)))
      df.index.length)
    (by rw [List.map_append, hlabels]; simp [hmean])
  have h3 := setCol_eq_of_not_mem
    ⟨(List.range df.index.length).map (fun i => toString i),
     (((kns.enumFrom 0).map (fun p =>
       (p.2, (List.range df.index.length).map
         (fun r => ((df.cols.dropLast.getD (3 * p.1 + 2) ("", [])).2).getD r Val.nan))))
       ++ [("model_name", List.replicate df.index.length (Val.str mn))])
       ++ [("mean", meanAxis1 (kns.dropLast.map (fun k =>
           (List.range df.index.length).map
             (fun r => ((df.cols.dropLast.getD (3 * kns.indexOf k + 2) ("", [])).2).getD r
               Val.nan))) df.index.length)]⟩
    "set" ((df.cols.getLastD ("", [])).2)
    (by rw [List.map_append, List.map_append, hlabels]; simp [hset])
  have h4 := setCol_eq_of_not_mem
    ⟨(List.range df.index.length).map (fun i => toString i),
     ((((kns.enumFrom 0).map (fun p =>
       (p.2, (List.range df.index.length).map
         (fun r => ((df.cols.dropLast.getD (3 * p.1 + 2) ("", [])).2).getD r Val.nan))))
       ++ [("model_name", List.replicate df.index.length (Val.str mn))])
       ++ [("mean", meanAxis1 (kns.dropLast.map (fun k =>
           (List.range df.index.length).map
             (fun r => ((df.cols.dropLast.getD (3 * kns.indexOf k + 2) ("", [])).2).getD r
               Val.nan))) df.index.length)])
       ++ [("set", (df.cols.getLastD ("", [])).2)]⟩
    "img_file" (df.index.map Val.str)
    (by rw [List.map_append, List.map_append, List.map_append, hlabels]; simp [himg])
  have hfinal : setCol (setCol (setCol
      ⟨(List.range df.index.length).map (fun i => toString i),
       ((kns.enumFrom 0).map (fun p =>
         (p.2, (List.range df.index.length).map
           (fun r => ((df.cols.dropLast.getD (3 * p.1 + 2) ("", [])).2).getD r Val.nan))))
         ++ [("model_name", List.replicate df.index.length (Val.str mn))]⟩
      "mean"
      (meanAxis1 (kns.dropLast.map (fun k =>
        (List.range df.index.length).map
          (fun r => ((df.cols.dropLast.getD (3 * kns.indexOf k + 2) ("", [])).2).getD r Val.nan)))
        df.index.length))
      "set" ((df.cols.getLastD ("", [])).2))
      "img_file" (df.index.map Val.str)
      = ⟨(List.range df.index.length).map (fun i => toString i),
         ((kns.enumFrom 0).map (fun p =>
            (p.2, (List.range df.index.length).map (fun r => cellAt df (3 * p.1 + 2) r))))
           ++ [("model_name", List.replicate df.index.length (Val.str mn)),
               ("mean", meanAxis1
                 (kns.dropLast.map (fun k =>
                   (List.range df.index.length).map
                     (fun r => cellAt df (3 * kns.indexOf k + 2) r)))
                 df.index.length)]
           ++ [("set", (df.cols.getLastD ("", [])).2),
               ("img_file", df.index.map Val.str)]⟩ := by
    rw [h2, h3, h4]
    rw [hconv1, hconv2]
    simp [List.append_assoc]
  exact congrArg Except.ok hfinal

theorem compute_confidence_struct0 (df : DataFrame String) (kns : List String) (mn : String)
    (hrows : df.index.length ≠ 0)
    (hm0 : df.cols.length % 3 = 0)
    (hk : 3 * kns.length = df.cols.length)
    (hkne : kns ≠ [])
    (hnodup : kns.Nodup)
    (hmn : "model_name" ∉ kns) (hmean : "mean" ∉ kns) :
    compute_confidence df kns mn = Except.ok
      ⟨(List.range df.index.length).map (fun i => toString i),
       (kns.enum.map (fun p =>
          (p.2, (List.range df.index.length).map (fun r => cellAt df (3 * p.1 + 2) r))))
         ++ [("model_name", List.replicate df.index.length (Val.str mn)),
             ("mean", meanAxis1
               (kns.dropLast.map (fun k =>
                 (List.range df.index.length).map
                   (fun r => cellAt df (3 * kns.indexOf k + 2) r)))
               df.index.length)]⟩ := by
  have hkfalse : kns.isEmpty = false := by
    cases kns with
    | nil => exact absurd rfl hkne
    | cons a t => rfl
  have hidx : (df.index.length == 0) = false := by simp [hrows]
  have hg2 : ¬(df.cols.length / 3 < kns.length) := by
    rw [← hk, Nat.mul_div_cancel_left _ (by norm_num : 0 < 3)]
    omega
  have hfold := fold_setCol_enumFrom
    (fun c => (List.range df.index.length).map
      (fun r => ((df.cols.getD (3 * c + 2) ("", [])).2).getD r Val.nan))
    ((List.range df.index.length).map (fun i => toString i)) kns 0 [] hnodup (by simp)
  simp only [List.nil_append] at hfold
  have hlabels : ((kns.enumFrom 0).map (fun p =>
      (p.2, (List.range df.index.length).map
        (fun r => ((df.cols.getD (3 * p.1 + 2) ("", [])).2).getD r Val.nan)))).map
          Prod.fst = kns :=
    enumMap_labels (fun c => (List.range df.index.length).map
      (fun r => ((df.cols.getD (3 * c + 2) ("", [])).2).getD r Val.nan)) kns 0
  have hd1 := setCol_eq_of_not_mem
    ⟨(List.range df.index.length).map (fun i => toString i),
     (kns.enumFrom 0).map (fun p =>
       (p.2, (List.range df.index.length).map
         (fun r => ((df.cols.getD (3 * p.1 + 2) ("", [])).2).getD r Val.nan)))⟩
    "model_name" (List.replicate df.index.length (Val.str mn))
    (by rw [hlabels]; exact hmn)
  have hfilterk : ∀ k ∈ kns.dropLast,
      (((kns.enumFrom 0).map (fun p =>
          (p.2, (List.range df.index.length).map
            (fun r => ((df.cols.getD (3 * p.1 + 2) ("", [])).2).getD r Val.nan))))
          ++ [("model_name", List.replicate df.index.length (Val.str mn))]).filter
            (fun c => c.1 == k)
        = [(k, (List.range df.index.length).map
            (fun r => ((df.cols.getD (3 * kns.indexOf k + 2) ("", [])).2).getD r Val.nan))] := by
    intro k hk'
    have hkk : k ∈ kns := List.dropLast_subset _ hk'
    rw [List.filter_append]
    have hmnk : (("model_name" : String) == k) = false := by
      simp only [beq_eq_false_iff_ne, ne_eq]
      intro hh
      exact hmn (hh ▸ hkk)
    have h2 : [(("model_name" : String), List.replicate df.index.length (Val.str mn))].filter
        (fun c => c.1 == k) = [] := by
      simp [hmnk]
    rw [h2, List.append_nil]
    have h := filter_enumMap
      (fun c => (List.range df.index.length).map
        (fun r => ((df.cols.getD (3 * c + 2) ("", [])).2).getD r Val.nan))
      kns 0 k hnodup hkk
    simpa using h
  have hsel := selectCols_of_unique
    ⟨(List.range df.index.length).map (fun i => toString i),
     ((kns.enumFrom 0).map (fun p =>
       (p.2, (List.range df.index.length).map
         (fun r => ((df.cols.getD (3 * p.1 + 2) ("", [])).2).getD r Val.nan))))
       ++ [("model_name", List.replicate df.index.length (Val.str mn))]⟩
    kns.dropLast
    (fun k => (List.range df.index.length).map
      (fun r => ((df.cols.getD (3 * kns.indexOf k + 2) ("", [])).2).getD r Val.nan))
    hfilterk
  simp only [compute_confidence, hm0, List.enum,
    show ((0 : Nat) == 1) = false from rfl, Bool.false_eq_true, if_false,
    bne_self_eq_false, Bool.or_false, hidx, hkfalse]
  rw [if_neg hg2]
  rw [hfold, hd1]
  rw [show selectCols
      ⟨(List.range df.index.length).map (fun i => toString i),
        ((kns.enumFrom 0).map (fun p =>
          (p.2, (List.range df.index.length).map
            (fun r => ((df.cols.getD (3 * p.1 + 2) ("", [])).2).getD r Val.nan))))
          ++ [("model_name", List.replicate df.index.length (Val.str mn))]⟩ kns.dropLast
      = some (kns.dropLast.map (fun k => (List.range df.index.length).map
          (fun r => ((df.cols.getD (3 * kns.indexOf k + 2) ("", [])).2).getD r Val.nan)))
    from hsel]
  have h2 := setCol_eq_of_not_mem
    ⟨(List.range df.index.length).map (fun i => toString i),
     ((kns.enumFrom 0).map (fun p =>
       (p.2, (List.range df.index.length).map
         (fun r => ((df.cols.getD (3 * p.1 + 2) ("", [])).2).getD r Val.nan))))
       ++ [("model_name", List.replicate df.index.length (Val.str mn))]⟩
    "mean"
    (meanAxis1 (kns.dropLast.map (fun k =>
      (List.range df.index.length).map
        (fun r => ((df.cols.getD (3 * kns.indexOf k + 2) ("", [])).2).getD r Val.nan)))
      df.index.length)
    (by rw [List.map_append, hlabels]; simp [hmean])
  have hfinal : setCol
      ⟨(List.range df.index.length).map (fun i => toString i),
       ((kns.enumFrom 0).map (fun p =>
         (p.2, (List.range df.index.length).map
           (fun r => ((df.cols.getD (3 * p.1 + 2) ("", [])).2).getD r Val.nan))))
         ++ [("model_name", List.replicate df.index.length (Val.str mn))]⟩
      "mean"
      (meanAxis1 (kns.dropLast.map (fun k =>
        (List.range df.index.length).map
          (fun r => ((df.cols.getD (3 * kns.indexOf k + 2) ("", [])).2).getD r Val.nan)))
        df.index.length)
      = ⟨(List.range df.index.length).map (fun i => toString i),
         ((kns.enumFrom 0).map (fun p =>
            (p.2, (List.range df.index.length).map (fun r => cellAt df (3 * p.1 + 2) r))))
           ++ [("model_name", List.replicate df.index.length (Val.str mn)),
               ("mean", meanAxis1
                 (kns.dropLast.map (fun k =>
                   (List.range df.index.length).map
                     (fun r => cellAt df (3 * kns.indexOf k + 2) r)))
                 df.index.length)]⟩ := by
    rw [h2]
    simp [cellAt, List.append_assoc]
  exact congrArg Except.ok hfinal

theorem getCol_append_skip (ix : List String) (l1 l2 : List (String × List Val)) (k : String)
    (h : k ∉ l1.map Prod.fst) : getCol ⟨ix, l1 ++ l2⟩ k = getCol ⟨ix, l2⟩ k := by
  unfold getCol
  rw [List.find?_append]
  have hf : l1.find? (fun c => c.1 == k) = none := by
    rw [List.find?_eq_none]
    intro c hc
    simp only [beq_iff_eq]
    intro hck
    exact h (List.mem_map.mpr ⟨c, hc, hck⟩)
  rw [hf, Option.none_or]

/-- C8: on a frame with column count ≡ 0 or 1 mod 3 (and a matching, nonempty
keypoint list — with no keypoints the fresh frame never acquires rows and the
source diverges from this shape), `compute_confidence` returns exactly
`confFrame`: the trailing column is treated as the `set` labels exactly when
the count is ≡ 1 mod 3; column `c` of the output holds keypoint `c`'s
confidences, the third slot of each triplet (input cell `3*c + 2`); and `set`
and `img_file` (the input's row index) are appended exactly in the ≡ 1
case. -/
theorem c8_compute_confidence (df : DataFrame String) (kns : List String) (mn : String)
    (hrows : df.index.length ≠ 0)
    (hmod : df.cols.length % 3 = 0 ∨ df.cols.length % 3 = 1)
    (hk : 3 * kns.length
        = (if df.cols.length % 3 = 1 then df.cols.length - 1 else df.cols.length))
    (hkne : kns ≠ [])
    (hnodup : kns.Nodup)
    (hmn : "model_name" ∉ kns) (hmean : "mean" ∉ kns)
    (hset : "set" ∉ kns) (himg : "img_file" ∉ kns) :
    compute_confidence df kns mn = Except.ok (confFrame df kns mn)
      ∧ (confFrame df kns mn).cols.map Prod.fst
          = kns ++ ["model_name", "mean"]
            ++ (if df.cols.length % 3 = 1 then ["set", "img_file"] else [])
      ∧ (∀ c, c < kns.length →
          (confFrame df kns mn).cols[c]? = some (kns.getD c "",
            (List.range df.index.length).map (fun r => cellAt df (3 * c + 2) r)))
      ∧ (df.cols.length % 3 = 1 →
          getCol (confFrame df kns mn) "set" = some ((df.cols.getLastD ("", [])).2)
            ∧ getCol (confFrame df kns mn) "img_file" = some (df.index.map Val.str)) := by
  have hlabels2 : (kns.enum.map (fun p =>
      (p.2, (List.range df.index.length).map (fun r => cellAt df (3 * p.1 + 2) r)))).map
        Prod.fst = kns := by
    simp only [List.enum]
    exact enumMap_labels (fun c =>
      (List.range df.index.length).map (fun r => cellAt df (3 * c + 2) r)) kns 0
  refine ⟨?_, ?_, ?_, ?_⟩
  · rcases hmod with hm0 | hm1
    · have hne1 : ¬(df.cols.length % 3 = 1) := by omega
      have hcf : confFrame df kns mn
          = ⟨(List.range df.index.length).map (fun i => toString i),
             (kns.enum.map (fun p =>
                (p.2, (List.range df.index.length).map (fun r => cellAt df (3 * p.1 + 2) r))))
               ++ [("model_name", List.replicate df.index.length (Val.str mn)),
                   ("mean", meanAxis1
                     (kns.dropLast.map (fun k =>
                       (List.range df.index.length).map
                         (fun r => cellAt df (3 * kns.indexOf k + 2) r)))
                     df.index.length)]⟩ := by
        unfold confFrame
        rw [if_neg hne1]
        simp
      rw [hcf]
      rw [if_neg hne1] at hk
      exact compute_confidence_struct0 df kns mn hrows hm0 hk hkne hnodup hmn hmean
    · have hcf : confFrame df kns mn
          = ⟨(List.range df.index.length).map (fun i => toString i),
             (kns.enum.map (fun p =>
                (p.2, (List.range df.index.length).map (fun r => cellAt df (3 * p.1 + 2) r))))
               ++ [("model_name", List.replicate df.index.length (Val.str mn)),
                   ("mean", meanAxis1
                     (kns.dropLast.map (fun k =>
                       (List.range df.index.length).map
                         (fun r => cellAt df (3 * kns.indexOf k + 2) r)))
                     df.index.length)]
               ++ [("set", (df.cols.getLastD ("", [])).2),
                   ("img_file", df.index.map Val.str)]⟩ := by
        unfold confFrame
        rw [if_pos hm1]
      rw [hcf]
      rw [if_pos hm1] at hk
      exact compute_confidence_struct df kns mn hrows hm1 hk hkne hnodup hmn hmean hset himg
  · unfold confFrame
    by_cases hm : df.cols.length % 3 = 1 <;>
      simp [hm, List.map_append, hlabels2]
  · intro c hc
    have hcolseq : (confFrame df kns mn).cols
        = (kns.enum.map (fun p =>
            (p.2, (List.range df.index.length).map (fun r => cellAt df (3 * p.1 + 2) r))))
          ++ [("model_name", List.replicate df.index.length (Val.str mn)),
              ("mean", meanAxis1
                (kns.dropLast.map (fun k =>
                  (List.range df.index.length).map
                    (fun r => cellAt df (3 * kns.indexOf k + 2) r)))
                df.index.length)]
          ++ (if df.cols.length % 3 = 1 then
                [("set", (df.cols.getLastD ("", [])).2), ("img_file", df.index.map Val.str)]
              else []) := rfl
    have hlenA : (kns.enum.map (fun p =>
        (p.2, (List.range df.index.length).map (fun r => cellAt df (3 * p.1 + 2) r)))).length
          = kns.length := by
      simp
    rw [hcolseq]
    rw [List.getElem?_append_left (by rw [List.length_append, hlenA]; simp; omega)]
    rw [List.getElem?_append_left (by rw [hlenA]; omega)]
    rw [List.getElem?_map]
    have henum : kns.enum[c]? = some (c, kns[c]) := by
      simp only [List.enum]
      rw [List.getElem?_enumFrom, List.getElem?_eq_getElem hc]
      simp
    rw [henum]
    have hgd : kns.getD c "" = kns[c] := by
      rw [List.getD_eq_getElem?_getD, List.getElem?_eq_getElem hc]
      rfl
    rw [hgd]
    rfl
  · intro hm1
    have hframe : confFrame df kns mn
        = ⟨(List.range df.index.length).map (fun i => toString i),
           ((kns.enum.map (fun p =>
              (p.2, (List.range df.index.length).map (fun r => cellAt df (3 * p.1 + 2) r))))
             ++ [("model_name", List.replicate df.index.length (Val.str mn)),
                 ("mean", meanAxis1
                   (kns.dropLast.map (fun k =>
                     (List.range df.index.length).map
                       (fun r => cellAt df (3 * kns.indexOf k + 2) r)))
                   df.index.length)])
             ++ [("set", (df.cols.getLastD ("", [])).2),
                 ("img_file", df.index.map Val.str)]⟩ := by
      unfold confFrame
      rw [if_pos hm1]
    have hskip : ∀ kq : String, kq ∉ kns → kq ≠ "model_name" → kq ≠ "mean" →
        getCol (confFrame df kns mn) kq
          = getCol ⟨(List.range df.index.length).map (fun i => toString i),
              [("set", (df.cols.getLastD ("", [])).2),
               ("img_file", df.index.map Val.str)]⟩ kq := by
      intro kq hq1 hq2 hq3
      rw [hframe]
      rw [getCol_append_skip]
      rw [List.map_append, hlabels2]
      simp only [List.mem_append, not_or]
      exact ⟨hq1, by simp [hq2, hq3]⟩
    constructor
    · rw [hskip "set" hset (by decide) (by decide)]
      rfl
    · rw [hskip "img_file" himg (by decide) (by decide)]
      rfl

/-- Witness for C8 on the example confidence frame (3 keypoints ×
(x, y, likelihood) plus a trailing `set` column). -/
theorem c8_witness :
    (compute_confidence exConfDf ["A", "B", "C"] "m"
        = Except.ok (confFrame exConfDf ["A", "B", "C"] "m"))
      ∧ (confFrame exConfDf ["A", "B", "C"] "m").cols.map Prod.fst
          = ["A", "B", "C"] ++ ["model_name", "mean"]
            ++ (if exConfDf.cols.length % 3 = 1 then ["set", "img_file"] else [])
      ∧ (confFrame exConfDf ["A", "B", "C"] "m").cols[0]?
          = some ("A", (List.range exConfDf.index.length).map
              (fun r => cellAt exConfDf (3 * 0 + 2) r))
      ∧ (getCol (confFrame exConfDf ["A", "B", "C"] "m") "set"
            = some ((exConfDf.cols.getLastD ("", [])).2)
          ∧ getCol (confFrame exConfDf ["A", "B", "C"] "m") "img_file"
            = some (exConfDf.index.map Val.str)) := by
  have h := c8_compute_confidence exConfDf ["A", "B", "C"] "m" (by decide)
    (Or.inr (by decide)) (by decide) (by decide) (by decide) (by decide) (by decide) (by decide)
    (by decide)
  exact ⟨h.1, h.2.1, h.2.2.1 0 (by decide), h.2.2.2 (by decide)⟩

/-- C1: in both `get_precomputed_error` and `compute_confidence` the `mean`
column is, in every row, the arithmetic mean of the keypoint columns for all
keypoints except the last name in `keypoint_names`.  For the first function
the keypoint columns are read from the input frame: each averaged keypoint
name must label exactly one input column (the filter hypothesis) with the
numeric values `Q k` — pandas `df_[kns[:-1]]` selects every column bearing a
requested label, so a duplicated keypoint label would enlarge the set of
averaged columns and the denominator.  For the second function they are the
extracted confidences (`G c r` is the numeric value of input cell `3*c + 2`
in row `r`). -/
theorem c1_mean_excludes_last :
    (∀ (df : DataFrame String) (kns : List String) (mn : String) (Q : String → List ℚ),
        2 ≤ kns.length →
        (∀ k ∈ kns.dropLast,
          df.cols.filter (fun c => c.1 == k) = [(k, (Q k).map Val.num)]) →
        (∀ k ∈ kns.dropLast, (Q k).length = df.index.length) →
        "model_name" ∉ kns →
        (df.cols.headD ("", [])).1 ≠ "mean" →
        meanColOf (get_precomputed_error df kns mn)
          = some ((List.range df.index.length).map (fun r =>
              Val.num (meanSpec (kns.dropLast.map (fun k => (Q k).getD r 0))))))
      ∧ (∀ (df : DataFrame String) (kns : List String) (mn : String) (G : Nat → Nat → ℚ),
          2 ≤ kns.length →
          df.index.length ≠ 0 →
          (df.cols.length % 3 = 0 ∨ df.cols.length % 3 = 1) →
          3 * kns.length
            = (if df.cols.length % 3 = 1 then df.cols.length - 1 else df.cols.length) →
          kns.Nodup →
          "model_name" ∉ kns → "mean" ∉ kns → "set" ∉ kns → "img_file" ∉ kns →
          (∀ c r, c < kns.length → r < df.index.length →
            cellAt df (3 * c + 2) r = Val.num (G c r)) →
          meanColOf (compute_confidence df kns mn)
            = some ((List.range df.index.length).map (fun r =>
                Val.num (meanSpec ((List.range (kns.length - 1)).map (fun c => G c r)))))) := by
  constructor
  · intro df kns mn Q hlen2 hQ hQlen hmn hfirst
    have hsub : ∀ k ∈ kns.dropLast, k ≠ "model_name" := fun k hk hh =>
      hmn (hh ▸ List.dropLast_subset _ hk)
    have hQ1 : ∀ k ∈ kns.dropLast,
        (setCol df "model_name" (List.replicate df.index.length (Val.str mn))).cols.filter
            (fun c => c.1 == k)
          = [(k, (Q k).map Val.num)] := by
      intro k hk
      rw [filter_setCol_ne df "model_name" k _ (hsub k hk)]
      exact hQ k hk
    have hsel : selectCols (setCol df "model_name"
          (List.replicate df.index.length (Val.str mn))) kns.dropLast
        = some (kns.dropLast.map (fun k => (Q k).map Val.num)) :=
      selectCols_of_unique _ kns.dropLast (fun k => (Q k).map Val.num) hQ1
    have hdlne : kns.dropLast ≠ [] := by
      have hdl : kns.dropLast.length = kns.length - 1 := by simp
      intro hh
      rw [hh] at hdl
      simp at hdl
      omega
    obtain ⟨k0, hk0⟩ : ∃ k0, k0 ∈ kns.dropLast := by
      cases hd : kns.dropLast with
      | nil => exact absurd hd hdlne
      | cons a t => exact ⟨a, hd ▸ List.mem_cons_self a t⟩
    have hdfne : df.cols ≠ [] := by
      intro hc
      have h := hQ k0 hk0
      rw [hc] at h
      simp at h
    have hmain : get_precomputed_error df kns mn
        = Except.ok (renameCol
            (setCol (setCol df "model_name" (List.replicate df.index.length (Val.str mn)))
              "mean" (meanAxis1 (kns.dropLast.map (fun k => (Q k).map Val.num))
                df.index.length))
            (((setCol (setCol df "model_name" (List.replicate df.index.length (Val.str mn)))
              "mean" (meanAxis1 (kns.dropLast.map (fun k => (Q k).map Val.num))
                df.index.length)).cols.headD ("", [])).1)
            "img_file") := by
      simp only [get_precomputed_error]
      rw [hsel]
    have hd1ne : (setCol df "model_name"
        (List.replicate df.index.length (Val.str mn))).cols ≠ [] :=
      setCol_cols_ne_nil df _ _
    have hhead : ((setCol (setCol df "model_name" (List.replicate df.index.length (Val.str mn)))
        "mean" (meanAxis1 (kns.dropLast.map (fun k => (Q k).map Val.num))
          df.index.length)).cols.headD ("", [])).1
        = (df.cols.headD ("", [])).1 := by
      rw [setCol_head_fst _ _ _ hd1ne, setCol_head_fst _ _ _ hdfne]
    have hM : meanAxis1 (kns.dropLast.map (fun k => (Q k).map Val.num)) df.index.length
        = (List.range df.index.length).map (fun r =>
            Val.num (meanSpec (kns.dropLast.map (fun k => (Q k).getD r 0)))) := by
      have h1 : kns.dropLast.map (fun k => (Q k).map Val.num)
          = (kns.dropLast.map Q).map (fun c => c.map Val.num) := by
        rw [List.map_map]
        rfl
      rw [h1, meanAxis1_num (kns.dropLast.map Q) df.index.length ?hl ?hn]
      · refine List.map_congr_left (fun r _ => ?_)
        rw [List.map_map]
        rfl
      case hl =>
        intro c hc
        rcases List.mem_map.mp hc with ⟨k, hk, rfl⟩
        exact hQlen k hk
      case hn => intro hh; exact hdlne (List.map_eq_nil_iff.mp hh)
    rw [hmain]
    simp only [meanColOf]
    rw [getCol_renameCol_ne _ _ _ "mean" (by rw [hhead]; exact hfirst) (by decide)]
    rw [getCol_setCol_self]
    rw [hM]
  · intro df kns mn G hlen2 hrows hmod hk hnodup hmn hmean hset himg hG
    have hkne : kns ≠ [] := by
      intro hh
      subst hh
      exact absurd hlen2 (by decide)
    have hdlne : kns.dropLast ≠ [] := by
      have hdl : kns.dropLast.length = kns.length - 1 := by simp
      intro hh
      rw [hh] at hdl
      simp at hdl
      omega
    have hlabels2 : (kns.enum.map (fun p =>
        (p.2, (List.range df.index.length).map (fun r => cellAt df (3 * p.1 + 2) r)))).map
          Prod.fst = kns := by
      simp only [List.enum]
      exact enumMap_labels (fun c =>
        (List.range df.index.length).map (fun r => cellAt df (3 * c + 2) r)) kns 0
    have hM : meanAxis1 (kns.dropLast.map (fun k =>
          (List.range df.index.length).map (fun r => cellAt df (3 * kns.indexOf k + 2) r)))
          df.index.length
        = (List.range df.index.length).map (fun r =>
            Val.num (meanSpec ((List.range (kns.length - 1)).map (fun c => G c r)))) := by
      have hsel1 : kns.dropLast.map (fun k =>
            (List.range df.index.length).map (fun r => cellAt df (3 * kns.indexOf k + 2) r))
          = (kns.dropLast.map (fun k =>
              (List.range df.index.length).map (fun r => G (kns.indexOf k) r))).map
            (fun c => c.map Val.num) := by
        rw [List.map_map]
        refine List.map_congr_left (fun k hk => ?_)
        simp only [Function.comp_apply]
        rw [List.map_map]
        refine List.map_congr_left (fun r hr => ?_)
        have hidx : kns.indexOf k < kns.length :=
          List.indexOf_lt_length.mpr (List.dropLast_subset _ hk)
        exact hG (kns.indexOf k) r hidx (List.mem_range.mp hr)
      rw [hsel1, meanAxis1_num _ df.index.length ?hl ?hn]
      · refine List.map_congr_left (fun r hr => ?_)
        have hr' := List.mem_range.mp hr
        congr 1
        rw [List.map_map]
        have h2 : kns.dropLast.map ((fun c => c.getD r 0) ∘ (fun k =>
              (List.range df.index.length).map (fun r => G (kns.indexOf k) r)))
            = kns.dropLast.map (fun k => G (kns.indexOf k) r) := by
          refine List.map_congr_left (fun k _ => ?_)
          simp only [Function.comp_apply]
          exact map_range_getD (fun r => G (kns.indexOf k) r) 0 df.index.length r hr'
        rw [h2]
        exact congrArg meanSpec (dropLast_indexOf_map kns hnodup (fun c => G c r))
      case hl =>
        intro c hc
        rcases List.mem_map.mp hc with ⟨k, hk, rfl⟩
        simp
      case hn => intro hh; exact hdlne (List.map_eq_nil_iff.mp hh)
    rcases hmod with hm0 | hm1
    · rw [if_neg (by omega : ¬(df.cols.length % 3 = 1))] at hk
      rw [compute_confidence_struct0 df kns mn hrows hm0 hk hkne hnodup hmn hmean]
      simp only [meanColOf]
      rw [getCol_append_skip _ _ _ "mean" (by rw [hlabels2]; exact hmean)]
      show some _ = _
      rw [hM]
    · rw [if_pos hm1] at hk
      rw [compute_confidence_struct df kns mn hrows hm1 hk hkne hnodup hmn hmean hset himg]
      simp only [meanColOf]
      rw [List.append_assoc]
      rw [getCol_append_skip _ _ _ "mean" (by rw [hlabels2]; exact hmean)]
      show some _ = _
      rw [hM]

/-- Witness for C1 at the spec's example: keypoints [A, B, C] with row values
1, 2, 3 — the mean averages A and B only. -/
theorem c1_witness :
    (meanColOf (get_precomputed_error exPixDf ["A", "B", "C"] "m")
        = some ((List.range exPixDf.index.length).map (fun r =>
            Val.num (meanSpec (["A", "B", "C"].dropLast.map (fun k =>
              ((fun k => if k = "A" then [(1 : ℚ)] else if k = "B" then [2] else [3]) k).getD
                r 0))))))
      ∧ (meanColOf (compute_confidence exConfDf ["A", "B", "C"] "m")
          = some ((List.range exConfDf.index.length).map (fun r =>
              Val.num (meanSpec ((List.range (["A", "B", "C"].length - 1)).map (fun c =>
                (fun c (_ : Nat) => if c = 0 then (1 : ℚ) else if c = 1 then 2 else 3)
                  c r)))))) := by
  constructor
  · refine c1_mean_excludes_last.1 exPixDf ["A", "B", "C"] "m"
      (fun k => if k = "A" then [(1 : ℚ)] else if k = "B" then [2] else [3])
      (by decide) ?_ ?_ (by decide) (by decide)
    · intro k hk
      fin_cases hk <;> rfl
    · intro k hk
      fin_cases hk <;> rfl
  · refine c1_mean_excludes_last.2 exConfDf ["A", "B", "C"] "m"
      (fun c _ => if c = 0 then (1 : ℚ) else if c = 1 then 2 else 3)
      (by decide) (by decide) (Or.inr (by decide)) (by decide) (by decide)
      (by decide) (by decide) (by decide) (by decide) ?_
    intro c r hc hr
    match c, r, hc, hr with
    | 0, 0, _, _ => rfl
    | 1, 0, _, _ => rfl
    | 2, 0, _, _ => rfl
    | c + 3, _, hc, _ => exact absurd hc (show ¬(c + 3 < 3) by omega)
    | _, r + 1, _, hr => exact absurd hr (show ¬(r + 1 < 1) by omega)
